import Mathlib

/-!
# it-consultant-microservices: Data Service and Web Service

A shallow embedding of `api-service/main.go` and `web-service/main.go`.

* A request is one that reaches the handler given to `http.ListenAndServe`; what the
  server answers before any handler runs (a request line it cannot parse, the
  asterisk form of OPTIONS) is outside the embedding.

* HTTP exchanges are state passing over a `ResponseWriter` record that holds what the
  handler chain hands to `net/http`: the header map as it stands when the status line
  is written, the status code, the bytes written, and the lines sent to the process
  log.  Headers that `net/http` adds on its own afterwards (`Date`, `Content-Length`,
  a sniffed `Content-Type`) are not part of the record.  `serve` is the record the
  handler chain leaves; `respond` is the response sent from it, which for a HEAD request
  has no body.
* Request and response bodies are text (sequences of Unicode characters), read to the
  end of the stream.
* `encoding/json` is embedded as a scanner for the first value of a stream followed by
  the store of that value into the Go struct, the two stages of `Decoder.Decode`.
-/

set_option autoImplicit false
set_option maxRecDepth 100000

namespace ItConsultant

/-! ## Characters of the JSON grammar -/

def chTab : Char := Char.ofNat 0x09
def chLF : Char := Char.ofNat 0x0A
def chFF : Char := Char.ofNat 0x0C
def chCR : Char := Char.ofNat 0x0D
def chBS : Char := Char.ofNat 0x08
def chSpace : Char := Char.ofNat 0x20
def chQuote : Char := Char.ofNat 0x22
def chBackslash : Char := Char.ofNat 0x5C
def chSlash : Char := Char.ofNat 0x2F
def chLBrace : Char := Char.ofNat 0x7B
def chRBrace : Char := Char.ofNat 0x7D
def chLBracket : Char := Char.ofNat 0x5B
def chRBracket : Char := Char.ofNat 0x5D
def chColon : Char := Char.ofNat 0x3A
def chComma : Char := Char.ofNat 0x2C
def chMinus : Char := Char.ofNat 0x2D
def chPlus : Char := Char.ofNat 0x2B
def chDot : Char := Char.ofNat 0x2E
def chReplacement : Char := Char.ofNat 0xFFFD

/-- Go `isSpace` of `encoding/json`: space, tab, carriage return, line feed. -/
def isSpace (c : Char) : Bool :=
  c = chSpace || c = chTab || c = chCR || c = chLF

def isDigit (c : Char) : Bool :=
  0x30 ≤ c.toNat && c.toNat ≤ 0x39

/-- Value of a hexadecimal digit, either case. -/
def hexVal (c : Char) : Option Nat :=
  let n := c.toNat
  if 0x30 ≤ n ∧ n ≤ 0x39 then some (n - 0x30)
  else if 0x61 ≤ n ∧ n ≤ 0x66 then some (n - 0x61 + 10)
  else if 0x41 ≤ n ∧ n ≤ 0x46 then some (n - 0x41 + 10)
  else none

/-- Go `getu4` on the four characters that follow a backslash and `u`. -/
def getu4 (a b c d : Char) : Option Nat :=
  match hexVal a, hexVal b, hexVal c, hexVal d with
  | some x, some y, some z, some w => some (((x * 16 + y) * 16 + z) * 16 + w)
  | _, _, _, _ => none

/-! ## JSON values and the scanner -/

inductive JValue where
  | null
  | bool (b : Bool)
  | number (lit : String)
  | string (s : String)
  | array (elems : List JValue)
  | object (members : List (String × JValue))

/-- Go `maxNestingDepth` of the scanner. -/
def maxNestingDepth : Nat := 10000

def skipSpace : List Char → List Char
  | [] => []
  | c :: cs => if isSpace c then skipSpace cs else c :: cs

/-- Longest prefix of decimal digits, and what follows it. -/
def scanDigits : List Char → List Char × List Char
  | [] => ([], [])
  | c :: cs =>
    if isDigit c then
      let r := scanDigits cs
      (c :: r.1, r.2)
    else ([], c :: cs)

/-- Exponent part (scanner states `stateE`, `stateESign`, `stateE0`); the input stands
right after the `e` or `E`. -/
def scanExponent (cs : List Char) : Option (List Char × List Char) :=
  let signed : List Char × List Char :=
    match cs with
    | c :: rest => if c = chPlus ∨ c = chMinus then ([c], rest) else ([], cs)
    | [] => ([], [])
  let ds := scanDigits signed.2
  if ds.1 = [] then none else some (signed.1 ++ ds.1, ds.2)

/-- What may follow the integer part (scanner states `state0` and `state1`): an optional
fraction `stateDot`/`stateDot0` and an optional exponent. -/
def scanFraction (cs : List Char) : Option (List Char × List Char) :=
  let frac : Option (List Char × List Char) :=
    match cs with
    | c :: rest =>
      if c = chDot then
        let ds := scanDigits rest
        if ds.1 = [] then none else some (c :: ds.1, ds.2)
      else some ([], cs)
    | [] => some ([], [])
  match frac with
  | none => none
  | some (f, rest) =>
    match rest with
    | c :: rest2 =>
      if c = Char.ofNat 0x65 ∨ c = Char.ofNat 0x45 then
        match scanExponent rest2 with
        | none => none
        | some (e, rest3) => some (f ++ c :: e, rest3)
      else some (f, rest)
    | [] => some (f, [])

/-- Digits of a number after an optional minus sign (scanner states `stateNeg`, `state0`,
`state1`): a lone zero or a digit 1-9 followed by digits. -/
def scanUnsigned : List Char → Option (List Char × List Char)
  | [] => none
  | c :: cs =>
    if c = Char.ofNat 0x30 then
      match scanFraction cs with
      | none => none
      | some (f, rest) => some (c :: f, rest)
    else if isDigit c then
      let ds := scanDigits cs
      match scanFraction ds.2 with
      | none => none
      | some (f, rest) => some (c :: ds.1 ++ f, rest)
    else none

/-- One unit of a string literal: a character written as itself or through a simple
escape, or the 16-bit code of a four-digit hexadecimal escape. -/
inductive StrUnit where
  | lit (c : Char)
  | esc (rr : Nat)

/-- Body of a string literal, the input standing right after the opening quote (scanner
states `stateInString`, `stateInStringEsc`, `stateInStringEscU` to `stateInStringEscU123`).
Returns the units of the literal and the input after the closing quote. -/
def scanStringUnits : List Char → Option (List StrUnit × List Char)
  | [] => none
  | c :: cs =>
    if c = chQuote then some ([], cs)
    else if c = chBackslash then
      match cs with
      | [] => none
      | e :: cs1 =>
        if e = Char.ofNat 0x75 then
          match cs1 with
          | a :: b :: c2 :: d :: cs2 =>
            match getu4 a b c2 d with
            | none => none
            | some rr =>
              match scanStringUnits cs2 with
              | none => none
              | some (s, rest) => some (StrUnit.esc rr :: s, rest)
          | _ => none
        else
          let plain : Option Char :=
            if e = chQuote ∨ e = chBackslash ∨ e = chSlash then some e
            else if e = Char.ofNat 0x62 then some chBS
            else if e = Char.ofNat 0x66 then some chFF
            else if e = Char.ofNat 0x6E then some chLF
            else if e = Char.ofNat 0x72 then some chCR
            else if e = Char.ofNat 0x74 then some chTab
            else none
          match plain with
          | none => none
          | some x =>
            match scanStringUnits cs1 with
            | none => none
            | some (s, rest) => some (StrUnit.lit x :: s, rest)
    else if c.toNat < 0x20 then none
    else
      match scanStringUnits cs with
      | none => none
      | some (s, rest) => some (StrUnit.lit c :: s, rest)

/-- Go `unquote` on the units of a literal: a hexadecimal escape in the surrogate range joins the
escape that follows it when the two form a valid UTF-16 pair and is replaced by U+FFFD
otherwise. -/
def unquote : List StrUnit → List Char
  | [] => []
  | StrUnit.lit c :: rest => c :: unquote rest
  | StrUnit.esc rr :: rest =>
    let tl := unquote rest
    if 0xD800 ≤ rr ∧ rr < 0xE000 then
      match rest with
      | StrUnit.esc rr1 :: rest2 =>
        if rr < 0xDC00 ∧ 0xDC00 ≤ rr1 ∧ rr1 < 0xE000 then
          Char.ofNat ((rr - 0xD800) * 1024 + (rr1 - 0xDC00) + 0x10000) :: unquote rest2
        else chReplacement :: tl
      | _ => chReplacement :: tl
    else Char.ofNat rr :: tl

/-- A string literal after its opening quote: the unquoted text and the remaining input. -/
def scanString (cs : List Char) : Option (String × List Char) :=
  match scanStringUnits cs with
  | none => none
  | some (us, rest) => some (String.mk (unquote us), rest)

/-- A number literal starting at `cs` (first character a minus sign or a digit). -/
def scanNumber (cs : List Char) : Option (String × List Char) :=
  match cs with
  | [] => none
  | c :: rest =>
    if c = chMinus then
      match scanUnsigned rest with
      | none => none
      | some (n, rest2) => some (String.mk (c :: n), rest2)
    else
      match scanUnsigned cs with
      | none => none
      | some (n, rest2) => some (String.mk n, rest2)

/-- Remainder of the input when it starts with the given characters (the literal states
`stateT`, `stateTr`, ... of the scanner). -/
def expect : List Char → List Char → Option (List Char)
  | [], cs => some cs
  | _ :: _, [] => none
  | w :: ws, c :: cs => if c = w then expect ws cs else none

mutual
/-- One JSON value at the head of `cs` (no leading space), with the input that follows
it. `depth` is the number of enclosing arrays and objects and `cap` the most the
scanner lets it become, for which `readValue` passes `maxNestingDepth`; `fuel` bounds
the recursion and `readValue` supplies more than the input can use
(`parseValue_fuel_irrelevant`). -/
def parseValue (cap : Nat) : Nat → Nat → List Char → Option (JValue × List Char)
  | 0, _, _ => none
  | fuel + 1, depth, cs =>
    match cs with
    | [] => none
    | c :: rest =>
      if c = chLBrace then
        if cap < depth + 1 then none
        else
          match skipSpace rest with
          | [] => none
          | c2 :: rest2 =>
            if c2 = chRBrace then some (JValue.object [], rest2)
            else
              match parseMembers cap fuel (depth + 1) (c2 :: rest2) with
              | none => none
              | some (ms, rest3) => some (JValue.object ms, rest3)
      else if c = chLBracket then
        if cap < depth + 1 then none
        else
          match skipSpace rest with
          | [] => none
          | c2 :: rest2 =>
            if c2 = chRBracket then some (JValue.array [], rest2)
            else
              match parseElements cap fuel (depth + 1) (c2 :: rest2) with
              | none => none
              | some (vs, rest3) => some (JValue.array vs, rest3)
      else if c = chQuote then
        match scanString rest with
        | none => none
        | some (s, rest2) => some (JValue.string s, rest2)
      else if c = chMinus ∨ isDigit c then
        match scanNumber cs with
        | none => none
        | some (n, rest2) => some (JValue.number n, rest2)
      else if c = Char.ofNat 0x74 then
        match expect [Char.ofNat 0x72, Char.ofNat 0x75, Char.ofNat 0x65] rest with
        | none => none
        | some rest2 => some (JValue.bool true, rest2)
      else if c = Char.ofNat 0x66 then
        match expect [Char.ofNat 0x61, Char.ofNat 0x6C, Char.ofNat 0x73, Char.ofNat 0x65] rest with
        | none => none
        | some rest2 => some (JValue.bool false, rest2)
      else if c = Char.ofNat 0x6E then
        match expect [Char.ofNat 0x75, Char.ofNat 0x6C, Char.ofNat 0x6C] rest with
        | none => none
        | some rest2 => some (JValue.null, rest2)
      else none
/-- Members of an object up to and including the closing brace; `cs` stands at the first
non-space character after the opening brace or after a comma, where a key must start. -/
def parseMembers (cap : Nat) : Nat → Nat → List Char → Option (List (String × JValue) × List Char)
  | 0, _, _ => none
  | fuel + 1, depth, cs =>
    match cs with
    | [] => none
    | c :: rest =>
      if c = chQuote then
        match scanString rest with
        | none => none
        | some (key, rest1) =>
          match skipSpace rest1 with
          | [] => none
          | c2 :: rest2 =>
            if c2 = chColon then
              match parseValue cap fuel depth (skipSpace rest2) with
              | none => none
              | some (v, rest3) =>
                match skipSpace rest3 with
                | [] => none
                | c3 :: rest4 =>
                  if c3 = chComma then
                    match parseMembers cap fuel depth (skipSpace rest4) with
                    | none => none
                    | some (ms, rest5) => some ((key, v) :: ms, rest5)
                  else if c3 = chRBrace then some ([(key, v)], rest4)
                  else none
            else none
      else none
/-- Elements of an array up to and including the closing bracket; `cs` stands at the
first non-space character after the opening bracket or after a comma. -/
def parseElements (cap : Nat) : Nat → Nat → List Char → Option (List JValue × List Char)
  | 0, _, _ => none
  | fuel + 1, depth, cs =>
    match parseValue cap fuel depth cs with
    | none => none
    | some (v, rest) =>
      match skipSpace rest with
      | [] => none
      | c :: rest2 =>
        if c = chComma then
          match parseElements cap fuel depth (skipSpace rest2) with
          | none => none
          | some (vs, rest3) => some (v :: vs, rest3)
        else if c = chRBracket then some ([v], rest2)
        else none
end

/-- Go `Decoder.readValue`: the first JSON value of the stream, leading space skipped,
and the input that follows it, which is left unread. `none` when the stream does not
start with a complete value (syntax error or end of input inside the value). -/
def readValue (body : String) : Option (JValue × List Char) :=
  parseValue maxNestingDepth (2 * body.toList.length + 1) 0 (skipSpace body.toList)

/-! ## Storing a JSON value into Go data (`decodeState.value`) -/

/-- Errors that reach the handlers: a failed HTTP round trip, a stream that does not
start with a complete JSON value (`SyntaxError`, `io.EOF`, `io.ErrUnexpectedEOF`), and a
JSON value of the wrong kind for its Go target (`UnmarshalTypeError`). -/
inductive GoError where
  | transport (detail : String)
  | jsonSyntax
  | jsonType
deriving DecidableEq

/-- Simple case folding restricted to what can reach an ASCII letter: the upper-case
ASCII letters, the Kelvin sign (to k) and the long s (to s). For the all-ASCII field
names of this program, equality of folded names is the case-insensitive key match of
`encoding/json`. -/
def foldRune (c : Char) : Char :=
  if 0x41 ≤ c.toNat ∧ c.toNat ≤ 0x5A then Char.ofNat (c.toNat + 0x20)
  else if c = Char.ofNat 0x212A then Char.ofNat 0x6B
  else if c = Char.ofNat 0x17F then Char.ofNat 0x73
  else c

/-- Whether the object key selects the struct field with JSON name `name`: an exact match,
or else a case-insensitive one. -/
def fieldMatches (name key : String) : Bool :=
  key = name || key.toList.map foldRune = name.toList.map foldRune

/-- Store into a Go `string`: a JSON string is assigned, `null` leaves the target as it
is, anything else is a type error and leaves the target as it is. The flag reports the
type error. -/
def storeString (v : JValue) (cur : String) : String × Bool :=
  match v with
  | JValue.string s => (s, false)
  | JValue.null => (cur, false)
  | _ => (cur, true)

/-- Elements of a JSON array stored into a `[]string`, element by element into the
elements its backing array already holds (`old`, in order) and into zero strings where
the backing array ends: `decodeState.array` decodes into `v.Index(i)` and only grows the
slice, so a `null` or a mistyped element keeps what an earlier array under the same key
left there. -/
def storeStringElems : List JValue → List String → List String × Bool
  | [], _ => ([], false)
  | v :: vs, old =>
    let e := storeString v (old.headD "")
    let r := storeStringElems vs old.tail
    (e.1 :: r.1, e.2 || r.2)

/-- Store into a Go `[]string` that is `cur` and whose backing array holds `backing`
(`cur` followed by what earlier, longer arrays left behind). A non-empty array is
stored into the backing array and the slice becomes its first elements, as many as the
array has; an empty array gives a fresh empty slice and `null` a nil slice; anything
else is a type error and leaves the slice as it is. Returns the slice, its backing
array, and the flag. -/
def storeStrings (v : JValue) (cur backing : List String) :
    (List String × List String) × Bool :=
  match v with
  | JValue.array [] => (([], []), false)
  | JValue.array vs =>
    let r := storeStringElems vs backing
    ((r.1, r.1 ++ backing.drop vs.length), r.2)
  | JValue.null => (([], []), false)
  | _ => ((cur, backing), true)

/-! ## Wire types (the same in both services) -/

structure Profile where
  Name : String
  Title : String
  Tagline : String
  Summary : String
  Technologies : List String
  Location : String
deriving DecidableEq

structure Service where
  Slug : String
  Name : String
  Description : String
  Category : String
deriving DecidableEq

structure ContactRequest where
  Name : String
  Email : String
  Company : String
  Message : String
deriving DecidableEq

structure ServicesResponse where
  Items : List Service
deriving DecidableEq

/-- One object member stored into a `ContactRequest`; keys that select no field are
skipped. -/
def ContactRequest.setField (p : ContactRequest) (key : String) (v : JValue) :
    ContactRequest × Bool :=
  if fieldMatches "name" key then
    let r := storeString v p.Name
    ({ p with Name := r.1 }, r.2)
  else if fieldMatches "email" key then
    let r := storeString v p.Email
    ({ p with Email := r.1 }, r.2)
  else if fieldMatches "company" key then
    let r := storeString v p.Company
    ({ p with Company := r.1 }, r.2)
  else if fieldMatches "message" key then
    let r := storeString v p.Message
    ({ p with Message := r.1 }, r.2)
  else (p, false)

/-- Members of an object stored in order; later members overwrite earlier ones and a
type error anywhere is remembered. -/
def ContactRequest.setFields :
    List (String × JValue) → ContactRequest × Bool → ContactRequest × Bool
  | [], acc => acc
  | (k, v) :: ms, acc =>
    let r := ContactRequest.setField acc.1 k v
    ContactRequest.setFields ms (r.1, acc.2 || r.2)

/-- Go `decodeState.unmarshal` into a zero `ContactRequest`: an object is stored member by
member, `null` stores nothing, any other value is a type error. -/
def unmarshalContactRequest (v : JValue) : Except GoError ContactRequest :=
  match v with
  | JValue.object ms =>
    let r := ContactRequest.setFields ms (⟨"", "", "", ""⟩, false)
    if r.2 then Except.error GoError.jsonType else Except.ok r.1
  | JValue.null => Except.ok ⟨"", "", "", ""⟩
  | _ => Except.error GoError.jsonType

/-- `json.NewDecoder(r.Body).Decode(&payload)` for a `ContactRequest`. -/
def decodeContactRequest (body : String) : Except GoError ContactRequest :=
  match readValue body with
  | none => Except.error GoError.jsonSyntax
  | some (v, _) => unmarshalContactRequest v

def Service.setField (p : Service) (key : String) (v : JValue) : Service × Bool :=
  if fieldMatches "slug" key then
    let r := storeString v p.Slug
    ({ p with Slug := r.1 }, r.2)
  else if fieldMatches "name" key then
    let r := storeString v p.Name
    ({ p with Name := r.1 }, r.2)
  else if fieldMatches "description" key then
    let r := storeString v p.Description
    ({ p with Description := r.1 }, r.2)
  else if fieldMatches "category" key then
    let r := storeString v p.Category
    ({ p with Category := r.1 }, r.2)
  else (p, false)

def Service.setFields : List (String × JValue) → Service × Bool → Service × Bool
  | [], acc => acc
  | (k, v) :: ms, acc =>
    let r := Service.setField acc.1 k v
    Service.setFields ms (r.1, acc.2 || r.2)

/-- Store into a Go `Service`. -/
def storeService (v : JValue) (cur : Service) : Service × Bool :=
  match v with
  | JValue.object ms => Service.setFields ms (cur, false)
  | JValue.null => (cur, false)
  | _ => (cur, true)

/-- Elements of a JSON array stored into a `[]Service`, element by element into the
elements its backing array already holds (`old`) and into zero values where it ends, so
that fields an element does not mention keep what an earlier array under the same key
left there. -/
def storeServiceElems : List JValue → List Service → List Service × Bool
  | [], _ => ([], false)
  | v :: vs, old =>
    let e := storeService v (old.headD ⟨"", "", "", ""⟩)
    let r := storeServiceElems vs old.tail
    (e.1 :: r.1, e.2 || r.2)

/-- Store into a Go `[]Service` that is `cur` and whose backing array holds `backing`;
see `storeStrings`. -/
def storeServices (v : JValue) (cur backing : List Service) :
    (List Service × List Service) × Bool :=
  match v with
  | JValue.array [] => (([], []), false)
  | JValue.array vs =>
    let r := storeServiceElems vs backing
    ((r.1, r.1 ++ backing.drop vs.length), r.2)
  | JValue.null => (([], []), false)
  | _ => ((cur, backing), true)

/-- Members stored in order into a `ServicesResponse`; the second component of the state
is the backing array of `Items`. -/
def ServicesResponse.setFields :
    List (String × JValue) → (ServicesResponse × List Service) × Bool →
      (ServicesResponse × List Service) × Bool
  | [], acc => acc
  | (k, v) :: ms, acc =>
    if fieldMatches "items" k then
      let r := storeServices v acc.1.1.Items acc.1.2
      ServicesResponse.setFields ms ((⟨r.1.1⟩, r.1.2), acc.2 || r.2)
    else ServicesResponse.setFields ms acc

def unmarshalServicesResponse (v : JValue) : Except GoError ServicesResponse :=
  match v with
  | JValue.object ms =>
    let r := ServicesResponse.setFields ms ((⟨[]⟩, []), false)
    if r.2 then Except.error GoError.jsonType else Except.ok r.1.1
  | JValue.null => Except.ok ⟨[]⟩
  | _ => Except.error GoError.jsonType

/-- `json.NewDecoder(resp.Body).Decode(&sr)` for a `ServicesResponse`. -/
def decodeServicesResponse (body : String) : Except GoError ServicesResponse :=
  match readValue body with
  | none => Except.error GoError.jsonSyntax
  | some (v, _) => unmarshalServicesResponse v

/-- One object member stored into a `Profile`; `backing` is the backing array of
`Technologies`. -/
def Profile.setField (p : Profile) (backing : List String) (key : String) (v : JValue) :
    (Profile × List String) × Bool :=
  if fieldMatches "name" key then
    let r := storeString v p.Name
    (({ p with Name := r.1 }, backing), r.2)
  else if fieldMatches "title" key then
    let r := storeString v p.Title
    (({ p with Title := r.1 }, backing), r.2)
  else if fieldMatches "tagline" key then
    let r := storeString v p.Tagline
    (({ p with Tagline := r.1 }, backing), r.2)
  else if fieldMatches "summary" key then
    let r := storeString v p.Summary
    (({ p with Summary := r.1 }, backing), r.2)
  else if fieldMatches "technologies" key then
    let r := storeStrings v p.Technologies backing
    (({ p with Technologies := r.1.1 }, r.1.2), r.2)
  else if fieldMatches "location" key then
    let r := storeString v p.Location
    (({ p with Location := r.1 }, backing), r.2)
  else ((p, backing), false)

def Profile.setFields :
    List (String × JValue) → (Profile × List String) × Bool → (Profile × List String) × Bool
  | [], acc => acc
  | (k, v) :: ms, acc =>
    let r := Profile.setField acc.1.1 acc.1.2 k v
    Profile.setFields ms (r.1, acc.2 || r.2)

def unmarshalProfile (v : JValue) : Except GoError Profile :=
  match v with
  | JValue.object ms =>
    let r := Profile.setFields ms ((⟨"", "", "", "", [], ""⟩, []), false)
    if r.2 then Except.error GoError.jsonType else Except.ok r.1.1
  | JValue.null => Except.ok ⟨"", "", "", "", [], ""⟩
  | _ => Except.error GoError.jsonType

/-- `json.NewDecoder(resp.Body).Decode(&profile)` for a `Profile`. -/
def decodeProfile (body : String) : Except GoError Profile :=
  match readValue body with
  | none => Except.error GoError.jsonSyntax
  | some (v, _) => unmarshalProfile v

/-! ## Encoding (`json.Encoder.Encode`, HTML escaping on) -/

def hexDigit (n : Nat) : Char :=
  if n < 10 then Char.ofNat (0x30 + n) else Char.ofNat (0x61 + (n - 10))

/-- The six-character escape of a code below 0x10000. -/
def escapeU (n : Nat) : List Char :=
  [chBackslash, Char.ofNat 0x75, hexDigit (n / 4096 % 16), hexDigit (n / 256 % 16),
    hexDigit (n / 16 % 16), hexDigit (n % 16)]

/-- Go `appendString` for one character: quote and backslash get a backslash, the
control characters their short or hexadecimal escape, and `<`, `>`, `&`, U+2028 and
U+2029 their hexadecimal escape. -/
def encodeChar (c : Char) : List Char :=
  if c = chQuote ∨ c = chBackslash then [chBackslash, c]
  else if c = chBS then [chBackslash, Char.ofNat 0x62]
  else if c = chFF then [chBackslash, Char.ofNat 0x66]
  else if c = chLF then [chBackslash, Char.ofNat 0x6E]
  else if c = chCR then [chBackslash, Char.ofNat 0x72]
  else if c = chTab then [chBackslash, Char.ofNat 0x74]
  else if c.toNat < 0x20 ∨ c = Char.ofNat 0x3C ∨ c = Char.ofNat 0x3E ∨ c = Char.ofNat 0x26
      ∨ c = Char.ofNat 0x2028 ∨ c = Char.ofNat 0x2029 then escapeU c.toNat
  else [c]

def encodeChars : List Char → List Char
  | [] => []
  | c :: cs => encodeChar c ++ encodeChars cs

def encodeString (s : String) : String :=
  "\"" ++ String.mk (encodeChars s.toList) ++ "\""

/-- Comma-separated items between the given brackets. -/
def encodeList (items : List String) : String :=
  "[" ++ String.intercalate "," items ++ "]"

def encodeProfile (p : Profile) : String :=
  "\x7b\"name\":" ++ encodeString p.Name ++ ",\"title\":" ++ encodeString p.Title
    ++ ",\"tagline\":" ++ encodeString p.Tagline ++ ",\"summary\":" ++ encodeString p.Summary
    ++ ",\"technologies\":" ++ encodeList (p.Technologies.map encodeString)
    ++ ",\"location\":" ++ encodeString p.Location ++ "\x7d"

def encodeService (s : Service) : String :=
  "\x7b\"slug\":" ++ encodeString s.Slug ++ ",\"name\":" ++ encodeString s.Name
    ++ ",\"description\":" ++ encodeString s.Description
    ++ ",\"category\":" ++ encodeString s.Category ++ "\x7d"

def encodeServicesResponse (sr : ServicesResponse) : String :=
  "\x7b\"items\":" ++ encodeList (sr.Items.map encodeService) ++ "\x7d"

/-! ## `net/http`: requests and the response writer -/

/-- A request as a handler sees it: `r.Method`, `r.URL.Path` and the text of `r.Body`. -/
structure Request where
  Method : String
  Path : String
  Body : String
deriving DecidableEq

/-- What the handler chain has handed to the server so far. `status` is `none` until
the status line is written; `stderr` collects the lines given to `log.Printf`. -/
structure ResponseWriter where
  header : List (String × String)
  status : Option Nat
  body : String
  stderr : List String
deriving DecidableEq

/-- The writer a handler chain starts from. -/
def ResponseWriter.fresh : ResponseWriter := ⟨[], none, "", []⟩

def headerSet (k v : String) : List (String × String) → List (String × String)
  | [] => [(k, v)]
  | e :: rest => if e.1 = k then (k, v) :: rest else e :: headerSet k v rest

def headerGet (k : String) : List (String × String) → Option String
  | [] => none
  | e :: rest => if e.1 = k then some e.2 else headerGet k rest

/-- `w.Header().Set(k, v)`; once the status line is written the response headers are
fixed and a later `Set` no longer reaches the response. -/
def ResponseWriter.Set (w : ResponseWriter) (k v : String) : ResponseWriter :=
  match w.status with
  | none => { w with header := headerSet k v w.header }
  | some _ => w

def headerDel (k : String) : List (String × String) → List (String × String)
  | [] => []
  | e :: rest => if e.1 = k then headerDel k rest else e :: headerDel k rest

/-- `w.Header().Del(k)`, with the same cut-off at the status line as `Set`. -/
def ResponseWriter.Del (w : ResponseWriter) (k : String) : ResponseWriter :=
  match w.status with
  | none => { w with header := headerDel k w.header }
  | some _ => w

/-- The value of a response header, if set. -/
def ResponseWriter.Get (w : ResponseWriter) (k : String) : Option String :=
  headerGet k w.header

/-- `w.WriteHeader(code)`; only the first call counts. -/
def ResponseWriter.WriteHeader (w : ResponseWriter) (code : Nat) : ResponseWriter :=
  match w.status with
  | none => { w with status := some code }
  | some _ => w

/-- `w.Write(data)`; writes status 200 first when no status line was written yet. -/
def ResponseWriter.Write (w : ResponseWriter) (data : String) : ResponseWriter :=
  let w1 := w.WriteHeader 200
  { w1 with body := w1.body ++ data }

/-- `log.Printf` with an already formatted message (the time stamp left out). -/
def ResponseWriter.Printf (w : ResponseWriter) (line : String) : ResponseWriter :=
  { w with stderr := w.stderr ++ [line] }

/-- Go `http.Error`: drops a `Content-Length` header left by the caller, sets the
plain-text content type and `nosniff`, writes the status, and writes the message followed
by a line feed (`fmt.Fprintln`). -/
def http.Error (w : ResponseWriter) (msg : String) (code : Nat) : ResponseWriter :=
  let w0 := w.Del "Content-Length"
  let w1 := w0.Set "Content-Type" "text/plain; charset=utf-8"
  let w2 := w1.Set "X-Content-Type-Options" "nosniff"
  let w3 := w2.WriteHeader code
  w3.Write (msg ++ "\n")

/-- Go `http.NotFound`. -/
def http.NotFound (w : ResponseWriter) : ResponseWriter :=
  http.Error w "404 page not found" 404

/-! ## Data Service (`api-service/main.go`) -/

/-- `writeJSON(w, v, status)` with `v` already encoded: `Encoder.Encode` writes the value
followed by a line feed and cannot fail on the types of this program. -/
def writeJSON (w : ResponseWriter) (encoded : String) (status : Nat) : ResponseWriter :=
  let w1 := w.Set "Content-Type" "application/json"
  let w2 := w1.WriteHeader status
  w2.Write (encoded ++ "\n")

def seedProfile : Profile :=
  { Name := "Tosin Femi"
    Title := "Cloud & DevOps Consultant"
    Tagline := "Modern cloud solutions for resilient, secure and scalable systems."
    Summary := "I help teams design, build, and operate cloud infrastructure on Azure and AWS with a strong focus on Kubernetes, Terraform, automation, and observability."
    Technologies := ["Azure", "AWS", "Kubernetes (AKS/EKS)", "Terraform", "GitHub Actions",
      "Azure DevOps", "Docker", "Argo CD"]
    Location := "Calgary · Remote-friendly" }

def seedServices : List Service :=
  [ { Slug := "cloud-architecture"
      Name := "Cloud Architecture & Migration"
      Description := "Azure & AWS landing zones, workload migration plans, and security-focused network design."
      Category := "Cloud" },
    { Slug := "kubernetes-platform"
      Name := "Kubernetes & Platform Engineering"
      Description := "Production-ready AKS/EKS clusters, GitOps workflows, and multi-environment platform design."
      Category := "Kubernetes" },
    { Slug := "devops-automation"
      Name := "DevOps & Automation"
      Description := "Infrastructure as Code, CI/CD pipelines, and release automation for faster, safer delivery."
      Category := "DevOps" },
    { Slug := "observability-reliability"
      Name := "Observability & Reliability"
      Description := "Logging, metrics, alerting, and SLOs so your team can detect and fix issues quickly."
      Category := "Operations" } ]

def handleProfile (w : ResponseWriter) (r : Request) : ResponseWriter :=
  if r.Method ≠ "GET" then http.Error w "method not allowed" 405
  else writeJSON w (encodeProfile seedProfile) 200

def handleServices (w : ResponseWriter) (r : Request) : ResponseWriter :=
  if r.Method ≠ "GET" then http.Error w "method not allowed" 405
  else writeJSON w (encodeServicesResponse ⟨seedServices⟩) 200

/-- The line that the `log.Printf` call of `handleContact` writes: the payload in the
`%+v` format, after the fixed prefix. -/
def contactLogLine (p : ContactRequest) : String :=
  "New contact request: \x7bName:" ++ p.Name ++ " Email:" ++ p.Email ++ " Company:"
    ++ p.Company ++ " Message:" ++ p.Message ++ "\x7d\n"

def acceptedBody : String :=
  "\x7b\"status\":\"accepted\",\"message\":\"Thanks, your request has been received.\"\x7d"

def handleContact (w : ResponseWriter) (r : Request) : ResponseWriter :=
  if r.Method ≠ "POST" then http.Error w "method not allowed" 405
  else
    match decodeContactRequest r.Body with
    | Except.error _ => http.Error w "invalid JSON" 400
    | Except.ok payload =>
      let w1 := w.Printf (contactLogLine payload)
      let w2 := w1.WriteHeader 202
      w2.Write acceptedBody

/-- A handler in state-passing form. -/
abbrev Handler := ResponseWriter → Request → ResponseWriter

def withCORS (next : Handler) : Handler := fun w r =>
  let w1 := w.Set "Access-Control-Allow-Origin" "*"
  let w2 := w1.Set "Access-Control-Allow-Methods" "GET, POST, OPTIONS"
  let w3 := w2.Set "Access-Control-Allow-Headers" "Content-Type"
  if r.Method = "OPTIONS" then w3.WriteHeader 204
  else next w3 r

/-- What `http.ServeMux` does on its own when no registered pattern is served: the 404
of `http.NotFound`, a 301 redirect to the canonical form of the path, or the bare 400
it gives a request whose target is `*`. -/
inductive MuxReply where
  | notFound
  | movedPermanently (location : String) (page : String)
  | badRequest

/-- The reply of the mux itself. The redirect sets `Location`, and on GET and HEAD an HTML
content type; `page` is the short HTML body it writes on GET. -/
def MuxReply.serve (m : MuxReply) (w : ResponseWriter) (r : Request) : ResponseWriter :=
  match m with
  | MuxReply.notFound => http.NotFound w
  | MuxReply.movedPermanently location page =>
    let w1 := w.Set "Location" location
    let w2 := if r.Method = "GET" ∨ r.Method = "HEAD"
      then w1.Set "Content-Type" "text/html; charset=utf-8" else w1
    let w3 := w2.WriteHeader 301
    if r.Method = "GET" then w3.Write page else w3
  | MuxReply.badRequest => (w.Set "Connection" "close").WriteHeader 400

/-- The mux of `main`: the three patterns registered with `HandleFunc` are slash-free
at the end and so match their exact path only. For every other path the mux answers on
its own; which of its replies it picks is decided inside `net/http` (path
canonicalisation) and is left open as `lib`. -/
def mux (lib : Request → MuxReply) : Handler := fun w r =>
  if r.Path = "/api/profile" then handleProfile w r
  else if r.Path = "/api/services" then handleServices w r
  else if r.Path = "/api/contact" then handleContact w r
  else (lib r).serve w r

/-- The handler given to `http.ListenAndServe`, run on a fresh writer. -/
def serve (lib : Request → MuxReply) (r : Request) : ResponseWriter :=
  withCORS (mux lib) ResponseWriter.fresh r

/-! ## Web Service (`web-service/main.go`) -/

/-- An outbound request of the shared `httpClient`. -/
structure ClientRequest where
  Method : String
  URL : String
deriving DecidableEq

/-- A backend response as `httpClient.Do` returns it: status code and body text. -/
structure Response where
  StatusCode : Nat
  Body : String
deriving DecidableEq

/-- The outcome of `httpClient.Do` for each request: an error (connection refused,
timeout, ...) or a response with any status. The backend is the environment of the Web
Service, so every theorem below quantifies over it. -/
abbrev Client := ClientRequest → Except GoError Response

/-- Go `http.NewRequest` with a nil body. It fails only on a malformed method or URL;
both call sites pass constants that are well formed. -/
def http.NewRequest (method url : String) : Except GoError ClientRequest :=
  Except.ok ⟨method, url⟩

/-- The pair `(*Profile, error)`; a nil pointer and a nil error are `none`. -/
def fetchProfile (c : Client) : Option Profile × Option GoError :=
  match http.NewRequest "GET" "http://api:8081/api/profile" with
  | Except.error err => (none, some err)
  | Except.ok req =>
    match c req with
    | Except.error err => (none, some err)
    | Except.ok resp =>
      match decodeProfile resp.Body with
      | Except.error err => (none, some err)
      | Except.ok profile => (some profile, none)

/-- The pair `([]Service, error)`; a nil slice is the empty list. -/
def fetchServices (c : Client) : List Service × Option GoError :=
  match http.NewRequest "GET" "http://api:8081/api/services" with
  | Except.error err => ([], some err)
  | Except.ok req =>
    match c req with
    | Except.error err => ([], some err)
    | Except.ok resp =>
      match decodeServicesResponse resp.Body with
      | Except.error err => ([], some err)
      | Except.ok sr => (sr.Items, none)

/-- A line of the Web Service log: the `log.Printf` format and the error it prints. -/
abbrev WebLog := List (String × GoError)

/-- The triple `(*Profile, []Service, error)` of `loadCoreData` and the lines it logs. -/
def loadCoreData (c : Client) : (Option Profile × List Service × Option GoError) × WebLog :=
  let p := fetchProfile c
  let log1 : WebLog :=
    match p.2 with
    | some err => [("Error fetching profile: %v", err)]
    | none => []
  let s := fetchServices c
  let log2 : WebLog :=
    match s.2 with
    | some err2 => log1 ++ [("Error fetching services: %v", err2)]
    | none => log1
  if p.2 ≠ none ∨ s.2 ≠ none then
    if p.2 ≠ none then ((p.1, s.1, p.2), log2)
    else ((p.1, s.1, s.2), log2)
  else ((p.1, s.1, none), log2)

structure PageData where
  Title : String
  Tagline : String
  Description : String
  Profile : Option Profile
  Services : List Service
  Error : String
deriving DecidableEq

/-- What a page handler ends with: `http.NotFound`, or the call
`renderTemplate(w, name, data)`. The template files are not Go source, so the call
itself is the result. -/
inductive Rendered where
  | notFound
  | renderTemplate (name : String) (data : PageData)
deriving DecidableEq

def homeHandler (c : Client) (r : Request) : Rendered × WebLog :=
  if r.Path ≠ "/" then (Rendered.notFound, [])
  else
    let core := loadCoreData c
    let data : PageData :=
      { Title := "Cloud & DevOps Consulting"
        Tagline := "Modern cloud solutions for resilient, secure and scalable systems."
        Description := "I help teams design, build, and operate cloud infrastructure on Azure and AWS with a strong focus on Kubernetes, Terraform, automation, and observability."
        Profile := core.1.1
        Services := core.1.2.1
        Error := "" }
    let data1 : PageData :=
      if core.1.2.2 ≠ none then
        { data with Error := "Some data could not be loaded from the API. Please try again later." }
      else data
    (Rendered.renderTemplate "home.html" data1, core.2)

def servicesHandler (c : Client) (_r : Request) : Rendered × WebLog :=
  let core := loadCoreData c
  let data : PageData :=
    { Title := "Services"
      Tagline := "End-to-end consulting across Cloud, DevOps, and Platform Engineering."
      Description := "From greenfield builds to rescuing existing platforms, I partner with teams to design and implement pragmatic cloud solutions."
      Profile := none
      Services := core.1.2.1
      Error := "" }
  let data1 : PageData :=
    if core.1.2.2 ≠ none then { data with Error := "Unable to load services from the API." }
    else data
  (Rendered.renderTemplate "services.html" data1, core.2)

def aboutHandler (c : Client) (_r : Request) : Rendered × WebLog :=
  let core := loadCoreData c
  let data : PageData :=
    { Title := "About"
      Tagline := "Hands-on Cloud Engineer & IT Consultant."
      Description := "I work with organizations to modernize infrastructure, improve reliability, and ship faster using proven DevOps practices."
      Profile := core.1.1
      Services := []
      Error := "" }
  let data1 : PageData :=
    if core.1.2.2 ≠ none then
      { data with Error := "Unable to load profile information from the API." }
    else data
  (Rendered.renderTemplate "about.html" data1, core.2)

def contactHandler (_r : Request) : Rendered × WebLog :=
  (Rendered.renderTemplate "contact.html"
    { Title := "Contact"
      Tagline := "Let’s talk about your infrastructure and delivery challenges."
      Description := "Use the form below to describe your current environment and what you’d like to improve. I’ll respond with practical next steps."
      Profile := none
      Services := []
      Error := "" }, [])

/-- The live part of the page data a handler gave to `renderTemplate`, if it rendered:
Profile, Services and Error. -/
def Rendered.summary : Rendered → Option (Option Profile × List Service × String)
  | Rendered.notFound => none
  | Rendered.renderTemplate _ data => some (data.Profile, data.Services, data.Error)

/-! ## Definitions used to state the theorems -/

/-- The writer after the three `Set` calls of `withCORS` on a fresh writer. -/
def corsWriter : ResponseWriter :=
  ⟨[("Access-Control-Allow-Origin", "*"), ("Access-Control-Allow-Methods", "GET, POST, OPTIONS"),
    ("Access-Control-Allow-Headers", "Content-Type")], none, "", []⟩

/-- The response that `http.Error` with message `method not allowed` and status 405
leaves behind `withCORS`. -/
def methodNotAllowed : ResponseWriter :=
  { header := [("Access-Control-Allow-Origin", "*"),
      ("Access-Control-Allow-Methods", "GET, POST, OPTIONS"),
      ("Access-Control-Allow-Headers", "Content-Type"),
      ("Content-Type", "text/plain; charset=utf-8"),
      ("X-Content-Type-Options", "nosniff")],
    status := some 405, body := "method not allowed\n", stderr := [] }

mutual
/-- How deep arrays and objects nest in a value: 0 for a scalar, one more than its
deepest element or member for an array or object. -/
def JValue.depth : JValue → Nat
  | JValue.array vs => depthElements vs + 1
  | JValue.object ms => depthMembers ms + 1
  | _ => 0
def depthElements : List JValue → Nat
  | [] => 0
  | v :: vs => max v.depth (depthElements vs)
def depthMembers : List (String × JValue) → Nat
  | [] => 0
  | m :: ms => max m.2.depth (depthMembers ms)
end

/-- The JSON grammar on its own: `body` starts, after optional space, with the value `v`
followed by `rest`. It is what the scanner reads when its nesting limit is put high
enough, whatever the limit of `encoding/json` is. -/
def startsWithValue (body : String) (v : JValue) (rest : List Char) : Prop :=
  ∃ cap : Nat,
    parseValue cap (2 * body.toList.length + 1) 0 (skipSpace body.toList) = some (v, rest)

/-- Arrays nested `k + 1` deep around nothing. -/
def nestedArray : Nat → JValue
  | 0 => JValue.array []
  | k + 1 => JValue.array [nestedArray k]

/-- The object whose only member, under the key x, is `depth` opening brackets followed
by as many closing ones. -/
def nestedBody (depth : Nat) : String :=
  String.mk ([chLBrace, chQuote, Char.ofNat 0x78, chQuote, chColon]
    ++ (List.replicate depth chLBracket ++ (List.replicate depth chRBracket ++ [chRBrace])))

/-- The response as the server sends it: status, headers and log as the handler chain
left them, and the bytes it wrote, except that the reply to a HEAD request carries no
body (`net/http` discards what a handler writes in reply to HEAD). -/
def respond (lib : Request → MuxReply) (r : Request) : ResponseWriter :=
  let w := serve lib r
  if r.Method = "HEAD" then { w with body := "" } else w

/-- Whether an object key selects one of the four fields of `ContactRequest`. -/
def isContactField (key : String) : Bool :=
  fieldMatches "name" key || fieldMatches "email" key || fieldMatches "company" key
    || fieldMatches "message" key

/-- A JSON value that a Go `string` accepts: a string or `null`. -/
def isStringOrNull : JValue → Bool
  | JValue.string _ => true
  | JValue.null => true
  | _ => false

/-- A body is a JSON document when it is one JSON value with nothing but space around
it. -/
def isJSONDocument (body : String) : Bool :=
  match readValue body with
  | some (_, rest) => (skipSpace rest).isEmpty
  | none => false

/-- The response of a successful `POST /api/contact`. -/
def accepted (payload : ContactRequest) : ResponseWriter :=
  { header := [("Access-Control-Allow-Origin", "*"),
      ("Access-Control-Allow-Methods", "GET, POST, OPTIONS"),
      ("Access-Control-Allow-Headers", "Content-Type")],
    status := some 202, body := acceptedBody, stderr := [contactLogLine payload] }

/-- The response that `http.Error` with message `invalid JSON` and status 400 leaves
behind `withCORS`. -/
def invalidJSON : ResponseWriter :=
  { header := [("Access-Control-Allow-Origin", "*"),
      ("Access-Control-Allow-Methods", "GET, POST, OPTIONS"),
      ("Access-Control-Allow-Headers", "Content-Type"),
      ("Content-Type", "text/plain; charset=utf-8"),
      ("X-Content-Type-Options", "nosniff")],
    status := some 400, body := "invalid JSON\n", stderr := [] }

/-- The request body of scenario S3. -/
def contactS3 : String :=
  "\x7b\"name\":\"A\",\"email\":\"a@b\",\"company\":\"C\",\"message\":\"hi\"\x7d"

/-- The mux answering every unregistered path with the 404 of `http.NotFound`. -/
def always404 : Request → MuxReply := fun _ => MuxReply.notFound

/-- A backend that answers every request with the given status and body. -/
def backendAnswering (status : Nat) (body : String) : Client :=
  fun _ => Except.ok ⟨status, body⟩

/-- A backend that is down: every round trip fails. -/
def backendDown : Client := fun _ => Except.error (GoError.transport "connection refused")

/-- The Data Service of this repository as the backend: the two fetch URLs are answered
by `serve` on the corresponding path. -/
def backendLive : Client := fun req =>
  if req.URL = "http://api:8081/api/profile" then
    let w := serve always404 ⟨req.Method, "/api/profile", ""⟩
    Except.ok ⟨w.status.getD 200, w.body⟩
  else if req.URL = "http://api:8081/api/services" then
    let w := serve always404 ⟨req.Method, "/api/services", ""⟩
    Except.ok ⟨w.status.getD 200, w.body⟩
  else Except.error (GoError.transport "no such host")

/-- A backend whose profile route works while its services route cannot be reached. -/
def backendServicesDown : Client := fun req =>
  if req.URL = "http://api:8081/api/services" then backendDown req else backendLive req

/-- A backend whose services route works while its profile route cannot be reached. -/
def backendProfileDown : Client := fun req =>
  if req.URL = "http://api:8081/api/profile" then backendDown req else backendLive req

/-! ## Theorems -/

theorem skipSpace_length_le (cs : List Char) : (skipSpace cs).length ≤ cs.length := by
  induction cs with
  | nil => simp [skipSpace]
  | cons c cs ih =>
    simp only [skipSpace]
    split
    · exact Nat.le_succ_of_le ih
    · exact Nat.le_refl _

theorem scanDigits_length_le (cs : List Char) : (scanDigits cs).2.length ≤ cs.length := by
  induction cs with
  | nil => simp [scanDigits]
  | cons c cs ih =>
    simp only [scanDigits]
    split
    · exact Nat.le_succ_of_le ih
    · exact Nat.le_refl _

theorem scanExponent_length_le (cs e rest : List Char)
    (h : scanExponent cs = some (e, rest)) : rest.length ≤ cs.length := by
  unfold scanExponent at h
  simp only at h
  split at h
  · cases h
  · simp only [Option.some.injEq, Prod.mk.injEq] at h
    rw [← h.2]
    refine Nat.le_trans (scanDigits_length_le _) ?_
    cases cs with
    | nil => simp
    | cons c rest2 =>
      simp only
      split <;> simp

theorem scanFraction_length_le (cs f rest : List Char)
    (h : scanFraction cs = some (f, rest)) : rest.length ≤ cs.length := by
  unfold scanFraction at h
  simp only at h
  split at h
  · cases h
  · next f1 rest1 hfrac =>
    have h1 : rest1.length ≤ cs.length := by
      cases cs with
      | nil => simp only [Option.some.injEq, Prod.mk.injEq] at hfrac; rw [← hfrac.2]
      | cons c cs2 =>
        simp only at hfrac
        split at hfrac
        · split at hfrac
          · cases hfrac
          · simp only [Option.some.injEq, Prod.mk.injEq] at hfrac
            rw [← hfrac.2]
            exact Nat.le_succ_of_le (scanDigits_length_le _)
        · simp only [Option.some.injEq, Prod.mk.injEq] at hfrac
          rw [← hfrac.2]
    split at h
    · split at h
      · split at h
        · cases h
        · next e rest3 he =>
          simp only [Option.some.injEq, Prod.mk.injEq] at h
          rw [← h.2]
          have := scanExponent_length_le _ _ _ he
          simp only [List.length_cons] at h1
          omega
      · simp only [Option.some.injEq, Prod.mk.injEq] at h
        rw [← h.2]; exact h1
    · simp only [Option.some.injEq, Prod.mk.injEq] at h
      rw [← h.2]; simp

theorem scanUnsigned_length_lt (cs n rest : List Char)
    (h : scanUnsigned cs = some (n, rest)) : rest.length < cs.length := by
  cases cs with
  | nil => simp [scanUnsigned] at h
  | cons c cs2 =>
    simp only [scanUnsigned] at h
    split at h
    · split at h
      · cases h
      · next f rest2 hf =>
        simp only [Option.some.injEq, Prod.mk.injEq] at h
        rw [← h.2]
        exact Nat.lt_succ_of_le (scanFraction_length_le _ _ _ hf)
    · split at h
      · split at h
        · cases h
        · next f rest2 hf =>
          simp only [Option.some.injEq, Prod.mk.injEq] at h
          rw [← h.2]
          exact Nat.lt_succ_of_le
            (Nat.le_trans (scanFraction_length_le _ _ _ hf) (scanDigits_length_le _))
      · cases h

theorem scanNumber_length_lt (cs : List Char) (n : String) (rest : List Char)
    (h : scanNumber cs = some (n, rest)) : rest.length < cs.length := by
  cases cs with
  | nil => simp [scanNumber] at h
  | cons c cs2 =>
    simp only [scanNumber] at h
    split at h
    · split at h
      · cases h
      · next m rest2 hu =>
        simp only [Option.some.injEq, Prod.mk.injEq] at h
        rw [← h.2]
        exact Nat.lt_succ_of_lt (scanUnsigned_length_lt _ _ _ hu)
    · split at h
      · cases h
      · next m rest2 hu =>
        simp only [Option.some.injEq, Prod.mk.injEq] at h
        rw [← h.2]
        exact scanUnsigned_length_lt _ _ _ hu

theorem expect_length_le (ws : List Char) :
    ∀ cs rest : List Char, expect ws cs = some rest → rest.length ≤ cs.length := by
  induction ws with
  | nil => intro cs rest h; simp only [expect, Option.some.injEq] at h; rw [h]
  | cons w ws ih =>
    intro cs rest h
    cases cs with
    | nil => simp [expect] at h
    | cons c cs2 =>
      simp only [expect] at h
      split at h
      · exact Nat.le_succ_of_le (ih _ _ h)
      · cases h

theorem scanStringUnits_length_aux (n : Nat) :
    ∀ cs : List Char, cs.length ≤ n → ∀ (us : List StrUnit) (rest : List Char),
      scanStringUnits cs = some (us, rest) → rest.length < cs.length := by
  induction n with
  | zero =>
    intro cs hn us rest h
    cases cs with
    | nil => simp [scanStringUnits] at h
    | cons c cs2 => simp at hn
  | succ n ih =>
    intro cs hn us rest h
    cases cs with
    | nil => simp [scanStringUnits] at h
    | cons c cs2 =>
      simp only [List.length_cons, Nat.add_le_add_iff_right] at hn
      rw [scanStringUnits.eq_def] at h
      simp only at h
      split at h
      · simp only [Option.some.injEq, Prod.mk.injEq] at h
        rw [← h.2]; simp
      · split at h
        · split at h
          · cases h
          · next e cs1 =>
            split at h
            · split at h
              · next a b c2 d cs3 =>
                split at h
                · cases h
                · split at h
                  · cases h
                  · next s rest2 hs =>
                    simp only [Option.some.injEq, Prod.mk.injEq] at h
                    rw [← h.2]
                    simp only [List.length_cons] at hn ⊢
                    have := ih cs3 (by omega) _ _ hs
                    omega
              · cases h
            · split at h
              · cases h
              · split at h
                · cases h
                · next s rest2 hs =>
                  simp only [Option.some.injEq, Prod.mk.injEq] at h
                  rw [← h.2]
                  simp only [List.length_cons] at hn ⊢
                  have := ih cs1 (by omega) _ _ hs
                  omega
        · split at h
          · cases h
          · split at h
            · cases h
            · next s rest2 hs =>
              simp only [Option.some.injEq, Prod.mk.injEq] at h
              rw [← h.2]
              simp only [List.length_cons]
              have := ih cs2 hn _ _ hs
              omega

theorem scanString_length_lt (cs : List Char) (s : String) (rest : List Char)
    (h : scanString cs = some (s, rest)) : rest.length < cs.length := by
  unfold scanString at h
  split at h
  · cases h
  · next us rest2 hs =>
    simp only [Option.some.injEq, Prod.mk.injEq] at h
    rw [← h.2]
    exact scanStringUnits_length_aux cs.length cs (Nat.le_refl _) _ _ hs

theorem parse_length_lt (cap fuel : Nat) :
    (∀ (d : Nat) (cs : List Char) (v : JValue) (rest : List Char),
        parseValue cap fuel d cs = some (v, rest) → rest.length < cs.length)
      ∧ (∀ (d : Nat) (cs : List Char) (ms : List (String × JValue)) (rest : List Char),
        parseMembers cap fuel d cs = some (ms, rest) → rest.length < cs.length)
      ∧ (∀ (d : Nat) (cs : List Char) (vs : List JValue) (rest : List Char),
        parseElements cap fuel d cs = some (vs, rest) → rest.length < cs.length) := by
  induction fuel with
  | zero =>
    refine ⟨?_, ?_, ?_⟩ <;> intro d cs v rest h
    · simp [parseValue] at h
    · simp [parseMembers] at h
    · simp [parseElements] at h
  | succ fuel ih =>
    obtain ⟨ihV, ihM, ihE⟩ := ih
    refine ⟨?_, ?_, ?_⟩
    · intro d cs v rest h
      cases cs with
      | nil => simp [parseValue] at h
      | cons c cs1 =>
        simp only [parseValue] at h
        split at h
        · -- object
          split at h
          · cases h
          · split at h
            · cases h
            · next c2 rest2 hsk =>
              have hle := skipSpace_length_le cs1
              rw [hsk] at hle
              split at h
              · simp only [Option.some.injEq, Prod.mk.injEq] at h
                rw [← h.2]
                simp only [List.length_cons] at hle ⊢
                omega
              · split at h
                · cases h
                · next ms rest3 hm =>
                  simp only [Option.some.injEq, Prod.mk.injEq] at h
                  rw [← h.2]
                  have := ihM _ _ _ _ hm
                  simp only [List.length_cons] at hle this ⊢
                  omega
        · split at h
          · -- array
            split at h
            · cases h
            · split at h
              · cases h
              · next c2 rest2 hsk =>
                have hle := skipSpace_length_le cs1
                rw [hsk] at hle
                split at h
                · simp only [Option.some.injEq, Prod.mk.injEq] at h
                  rw [← h.2]
                  simp only [List.length_cons] at hle ⊢
                  omega
                · split at h
                  · cases h
                  · next vs rest3 hm =>
                    simp only [Option.some.injEq, Prod.mk.injEq] at h
                    rw [← h.2]
                    have := ihE _ _ _ _ hm
                    simp only [List.length_cons] at hle this ⊢
                    omega
          · split at h
            · -- string
              split at h
              · cases h
              · next s rest2 hs =>
                simp only [Option.some.injEq, Prod.mk.injEq] at h
                rw [← h.2]
                exact Nat.lt_succ_of_lt (scanString_length_lt _ _ _ hs)
            · split at h
              · -- number
                split at h
                · cases h
                · next n rest2 hn =>
                  simp only [Option.some.injEq, Prod.mk.injEq] at h
                  rw [← h.2]
                  exact scanNumber_length_lt _ _ _ hn
              · split at h
                · split at h
                  · cases h
                  · next rest2 he =>
                    simp only [Option.some.injEq, Prod.mk.injEq] at h
                    rw [← h.2]
                    exact Nat.lt_succ_of_le (expect_length_le _ _ _ he)
                · split at h
                  · split at h
                    · cases h
                    · next rest2 he =>
                      simp only [Option.some.injEq, Prod.mk.injEq] at h
                      rw [← h.2]
                      exact Nat.lt_succ_of_le (expect_length_le _ _ _ he)
                  · split at h
                    · split at h
                      · cases h
                      · next rest2 he =>
                        simp only [Option.some.injEq, Prod.mk.injEq] at h
                        rw [← h.2]
                        exact Nat.lt_succ_of_le (expect_length_le _ _ _ he)
                    · cases h
    · intro d cs ms rest h
      cases cs with
      | nil => simp [parseMembers] at h
      | cons c cs1 =>
        simp only [parseMembers] at h
        split at h
        · split at h
          · cases h
          · next key rest1 hkey =>
            have h1 := scanString_length_lt _ _ _ hkey
            split at h
            · cases h
            · next c2 rest2 hsk =>
              have h2 := skipSpace_length_le rest1
              rw [hsk] at h2
              split at h
              · split at h
                · cases h
                · next v rest3 hv =>
                  have h3 := ihV _ _ _ _ hv
                  have h3b := skipSpace_length_le rest2
                  split at h
                  · cases h
                  · next c3 rest4 hsk2 =>
                    have h4 := skipSpace_length_le rest3
                    rw [hsk2] at h4
                    simp only [List.length_cons] at h2 h4 ⊢
                    split at h
                    · split at h
                      · cases h
                      · next ms2 rest5 hm =>
                        simp only [Option.some.injEq, Prod.mk.injEq] at h
                        rw [← h.2]
                        have h5 := ihM _ _ _ _ hm
                        have h5b := skipSpace_length_le rest4
                        omega
                    · split at h
                      · simp only [Option.some.injEq, Prod.mk.injEq] at h
                        rw [← h.2]
                        omega
                      · cases h
              · cases h
        · cases h
    · intro d cs vs rest h
      simp only [parseElements] at h
      split at h
      · cases h
      · next v rest1 hv =>
        have h1 := ihV _ _ _ _ hv
        split at h
        · cases h
        · next c rest2 hsk =>
          have h2 := skipSpace_length_le rest1
          rw [hsk] at h2
          simp only [List.length_cons] at h2
          split at h
          · split at h
            · cases h
            · next vs2 rest3 he =>
              simp only [Option.some.injEq, Prod.mk.injEq] at h
              rw [← h.2]
              have h3 := ihE _ _ _ _ he
              have h3b := skipSpace_length_le rest2
              omega
          · split at h
            · simp only [Option.some.injEq, Prod.mk.injEq] at h
              rw [← h.2]
              omega
            · cases h

theorem parse_fuel_succ (cap fuel : Nat) :
    (∀ (d : Nat) (cs : List Char), 2 * cs.length ≤ fuel →
        parseValue cap (fuel + 1) d cs = parseValue cap fuel d cs)
      ∧ (∀ (d : Nat) (cs : List Char), 2 * cs.length ≤ fuel →
        parseMembers cap (fuel + 1) d cs = parseMembers cap fuel d cs)
      ∧ (∀ (d : Nat) (cs : List Char), 2 * cs.length + 1 ≤ fuel →
        parseElements cap (fuel + 1) d cs = parseElements cap fuel d cs) := by
  induction fuel with
  | zero =>
    refine ⟨?_, ?_, ?_⟩ <;> intro d cs h
    · cases cs with
      | nil => rfl
      | cons c cs1 => simp only [List.length_cons] at h; omega
    · cases cs with
      | nil => rfl
      | cons c cs1 => simp only [List.length_cons] at h; omega
    · omega
  | succ fuel ih =>
    obtain ⟨ihV, ihM, ihE⟩ := ih
    refine ⟨?_, ?_, ?_⟩
    · intro d cs hlen
      cases cs with
      | nil => rfl
      | cons c cs1 =>
        conv_rhs => rw [parseValue]
        conv_lhs => rw [parseValue]
        simp only [List.length_cons] at hlen
        have hle := skipSpace_length_le cs1
        cases hsk : skipSpace cs1 with
        | nil => rfl
        | cons c2 rest2 =>
          rw [hsk] at hle
          simp only [List.length_cons] at hle
          simp only []
          rw [ihM (d + 1) (c2 :: rest2) (by simp only [List.length_cons]; omega),
            ihE (d + 1) (c2 :: rest2) (by simp only [List.length_cons]; omega)]
    · intro d cs hlen
      cases cs with
      | nil => rfl
      | cons c cs1 =>
        conv_rhs => rw [parseMembers]
        conv_lhs => rw [parseMembers]
        simp only [List.length_cons] at hlen
        cases hkey : scanString cs1 with
        | none => rfl
        | some kr =>
          obtain ⟨key, rest1⟩ := kr
          have h1 := scanString_length_lt _ _ _ hkey
          have h2 := skipSpace_length_le rest1
          simp only []
          cases hsk : skipSpace rest1 with
          | nil => rfl
          | cons c2 rest2 =>
            rw [hsk] at h2
            simp only [List.length_cons] at h2
            have h3 := skipSpace_length_le rest2
            simp only []
            rw [ihV d (skipSpace rest2) (by omega)]
            cases hv : parseValue cap fuel d (skipSpace rest2) with
            | none => rfl
            | some vr =>
              obtain ⟨v, rest3⟩ := vr
              have h4 := (parse_length_lt cap fuel).1 _ _ _ _ hv
              have h5 := skipSpace_length_le rest3
              simp only []
              cases hsk2 : skipSpace rest3 with
              | nil => rfl
              | cons c3 rest4 =>
                rw [hsk2] at h5
                simp only [List.length_cons] at h5
                have h6 := skipSpace_length_le rest4
                simp only []
                rw [ihM d (skipSpace rest4) (by omega)]
    · intro d cs hlen
      conv_rhs => rw [parseElements]
      conv_lhs => rw [parseElements]
      rw [ihV d cs (by omega)]
      cases hv : parseValue cap fuel d cs with
      | none => rfl
      | some vr =>
        obtain ⟨v, rest1⟩ := vr
        have h1 := (parse_length_lt cap fuel).1 _ _ _ _ hv
        have h2 := skipSpace_length_le rest1
        simp only []
        cases hsk : skipSpace rest1 with
        | nil => rfl
        | cons c rest2 =>
          rw [hsk] at h2
          simp only [List.length_cons] at h2
          have h3 := skipSpace_length_le rest2
          simp only []
          rw [ihE d (skipSpace rest2) (by omega)]

/-- More fuel than twice the input length never changes what the scanner returns: a
`none` of `readValue` is a verdict of the grammar and not an exhausted bound. -/
theorem parseValue_fuel_irrelevant (cap extra fuel : Nat) (d : Nat) (cs : List Char)
    (h : 2 * cs.length ≤ fuel) :
    parseValue cap (fuel + extra) d cs = parseValue cap fuel d cs := by
  induction extra with
  | zero => rfl
  | succ extra ih =>
    rw [← ih]
    exact (parse_fuel_succ cap (fuel + extra)).1 d cs (by omega)

/-- The same for `readValue`, which takes twice the length of the body plus one. -/
theorem readValue_fuel_irrelevant (extra : Nat) (body : String) :
    parseValue maxNestingDepth (2 * body.toList.length + 1 + extra) 0 (skipSpace body.toList)
      = readValue body := by
  unfold readValue
  have hle := skipSpace_length_le body.toList
  exact parseValue_fuel_irrelevant maxNestingDepth extra _ 0 _ (by omega)
/-- A value the scanner reads under one nesting limit is read under every limit that its
own depth respects. -/
theorem parse_cap (cap cap2 fuel : Nat) :
    (∀ (d : Nat) (cs : List Char) (v : JValue) (rest : List Char),
        parseValue cap fuel d cs = some (v, rest) → d + v.depth ≤ cap2 →
        parseValue cap2 fuel d cs = some (v, rest))
      ∧ (∀ (d : Nat) (cs : List Char) (ms : List (String × JValue)) (rest : List Char),
        parseMembers cap fuel d cs = some (ms, rest) → d + depthMembers ms ≤ cap2 →
        parseMembers cap2 fuel d cs = some (ms, rest))
      ∧ (∀ (d : Nat) (cs : List Char) (vs : List JValue) (rest : List Char),
        parseElements cap fuel d cs = some (vs, rest) → d + depthElements vs ≤ cap2 →
        parseElements cap2 fuel d cs = some (vs, rest)) := by
  induction fuel with
  | zero =>
    refine ⟨?_, ?_, ?_⟩ <;> intro d cs v rest h
    · simp [parseValue] at h
    · simp [parseMembers] at h
    · simp [parseElements] at h
  | succ fuel ih =>
    obtain ⟨ihV, ihM, ihE⟩ := ih
    refine ⟨?_, ?_, ?_⟩
    · intro d cs v rest h hd
      cases cs with
      | nil => simp [parseValue] at h
      | cons c cs1 =>
        simp only [parseValue] at h ⊢
        split at h
        · next hc =>
          rw [if_pos hc]
          split at h
          · cases h
          · split at h
            · cases h
            · next c2 rest2 hsk =>
              split at h
              · next hc2 =>
                simp only [Option.some.injEq, Prod.mk.injEq] at h
                obtain ⟨hv, hr⟩ := h
                subst hv hr
                simp only [JValue.depth, depthMembers] at hd
                rw [if_neg (by omega), if_pos hc2]
              · next hc2 =>
                split at h
                · cases h
                · next ms rest3 hm =>
                  simp only [Option.some.injEq, Prod.mk.injEq] at h
                  obtain ⟨hv, hr⟩ := h
                  subst hv hr
                  simp only [JValue.depth] at hd
                  rw [if_neg (by omega), if_neg hc2, ihM _ _ _ _ hm (by omega)]
        · next hc =>
          rw [if_neg hc]
          split at h
          · next hb =>
            rw [if_pos hb]
            split at h
            · cases h
            · split at h
              · cases h
              · next c2 rest2 hsk =>
                split at h
                · next hc2 =>
                  simp only [Option.some.injEq, Prod.mk.injEq] at h
                  obtain ⟨hv, hr⟩ := h
                  subst hv hr
                  simp only [JValue.depth, depthElements] at hd
                  rw [if_neg (by omega), if_pos hc2]
                · next hc2 =>
                  split at h
                  · cases h
                  · next vs rest3 hm =>
                    simp only [Option.some.injEq, Prod.mk.injEq] at h
                    obtain ⟨hv, hr⟩ := h
                    subst hv hr
                    simp only [JValue.depth] at hd
                    rw [if_neg (by omega), if_neg hc2, ihE _ _ _ _ hm (by omega)]
          · next hb =>
            rw [if_neg hb]
            exact h
    · intro d cs ms rest h hd
      cases cs with
      | nil => simp [parseMembers] at h
      | cons c cs1 =>
        simp only [parseMembers] at h ⊢
        split at h
        · next hc =>
          rw [if_pos hc]
          split at h
          · cases h
          · next key rest1 hkey =>
            split at h
            · cases h
            · next c2 rest2 hsk =>
              split at h
              · next hc2 =>
                rw [if_pos hc2]
                split at h
                · cases h
                · next v rest3 hv =>
                  split at h
                  · cases h
                  · next c3 rest4 hsk2 =>
                    split at h
                    · next hc3 =>
                      split at h
                      · cases h
                      · next ms2 rest5 hm =>
                        simp only [Option.some.injEq, Prod.mk.injEq] at h
                        obtain ⟨hms, hr⟩ := h
                        subst hms hr
                        simp only [depthMembers] at hd
                        rw [ihV _ _ _ _ hv (by omega)]
                        simp only [hsk2, if_pos hc3]
                        rw [ihM _ _ _ _ hm (by omega)]
                    · next hc3 =>
                      split at h
                      · next hc4 =>
                        simp only [Option.some.injEq, Prod.mk.injEq] at h
                        obtain ⟨hms, hr⟩ := h
                        subst hms hr
                        simp only [depthMembers] at hd
                        rw [ihV _ _ _ _ hv (by omega)]
                        simp only [hsk2, if_neg hc3, if_pos hc4]
                      · cases h
              · cases h
        · cases h
    · intro d cs vs rest h hd
      simp only [parseElements] at h ⊢
      split at h
      · cases h
      · next v rest1 hv =>
        split at h
        · cases h
        · next c rest2 hsk =>
          split at h
          · next hc =>
            split at h
            · cases h
            · next vs2 rest3 he =>
              simp only [Option.some.injEq, Prod.mk.injEq] at h
              obtain ⟨hvs, hr⟩ := h
              subst hvs hr
              simp only [depthElements] at hd
              rw [ihV _ _ _ _ hv (by omega)]
              simp only [hsk, if_pos hc]
              rw [ihE _ _ _ _ he (by omega)]
          · next hc =>
            split at h
            · next hc2 =>
              simp only [Option.some.injEq, Prod.mk.injEq] at h
              obtain ⟨hvs, hr⟩ := h
              subst hvs hr
              simp only [depthElements] at hd
              rw [ihV _ _ _ _ hv (by omega)]
              simp only [hsk, if_neg hc, if_pos hc2]
            · cases h

theorem nestedArray_depth (k : Nat) : (nestedArray k).depth = k + 1 := by
  induction k with
  | zero => rfl
  | succ k ih => simp [nestedArray, JValue.depth, depthElements, ih]

theorem skipSpace_cons_of_not_space (c : Char) (cs : List Char) (h : isSpace c = false) :
    skipSpace (c :: cs) = c :: cs := by
  simp [skipSpace, h]

theorem parseValue_brackets_too_deep (cap : Nat) (tail : List Char) :
    ∀ k fuel d : Nat, cap < d + (k + 1) →
      parseValue cap fuel d (List.replicate (k + 1) chLBracket ++ tail) = none := by
  intro k
  induction k with
  | zero =>
    intro fuel d h
    cases fuel with
    | zero => rfl
    | succ fuel =>
      simp only [List.replicate, List.nil_append, List.cons_append, parseValue]
      rw [if_neg (by decide : ¬ chLBracket = chLBrace), if_pos trivial, if_pos (by omega)]
  | succ k ih =>
    intro fuel d h
    cases fuel with
    | zero => rfl
    | succ fuel =>
      rw [List.replicate_succ, List.cons_append]
      simp only [parseValue]
      rw [if_neg (by decide : ¬ chLBracket = chLBrace), if_pos trivial]
      split
      · rfl
      · rw [List.replicate_succ, List.cons_append,
          skipSpace_cons_of_not_space _ _ (by decide)]
        simp only []
        rw [if_neg (by decide : ¬ chLBracket = chRBracket)]
        cases fuel with
        | zero => rfl
        | succ fuel =>
          simp only [parseElements]
          rw [← List.cons_append, ← List.replicate_succ, ih fuel (d + 1) (by omega)]

theorem parseValue_brackets (cap : Nat) :
    ∀ (k fuel d : Nat) (tail : List Char), 2 * k + 1 ≤ fuel → d + (k + 1) ≤ cap →
      parseValue cap fuel d
          (List.replicate (k + 1) chLBracket ++ (List.replicate (k + 1) chRBracket ++ tail))
        = some (nestedArray k, tail) := by
  intro k
  induction k with
  | zero =>
    intro fuel d tail hf hc
    obtain ⟨fuel, rfl⟩ : ∃ f, fuel = f + 1 := ⟨fuel - 1, by omega⟩
    simp only [List.replicate, List.nil_append, List.cons_append, parseValue]
    rw [if_neg (by decide : ¬ chLBracket = chLBrace), if_pos trivial, if_neg (by omega),
      skipSpace_cons_of_not_space _ _ (by decide)]
    simp only []
    rw [if_pos trivial]
    rfl
  | succ k ih =>
    intro fuel d tail hf hc
    obtain ⟨fuel, rfl⟩ : ∃ f, fuel = f + 2 := ⟨fuel - 2, by omega⟩
    rw [List.replicate_succ, List.cons_append]
    simp only [parseValue]
    rw [if_neg (by decide : ¬ chLBracket = chLBrace), if_pos trivial, if_neg (by omega),
      List.replicate_succ,
      List.cons_append, skipSpace_cons_of_not_space _ _ (by decide)]
    simp only []
    rw [if_neg (by decide : ¬ chLBracket = chRBracket)]
    simp only [parseElements]
    have hshape : List.replicate (k + 1 + 1) chRBracket ++ tail
        = List.replicate (k + 1) chRBracket ++ (chRBracket :: tail) := by
      rw [List.replicate_succ', List.append_assoc]; rfl
    rw [← List.cons_append, ← List.replicate_succ, hshape,
      ih fuel (d + 1) (chRBracket :: tail) (by omega) (by omega)]
    simp only []
    rw [skipSpace_cons_of_not_space _ _ (by decide)]
    simp only []
    rw [if_neg (by decide : ¬ chRBracket = chComma), if_pos trivial]
    rfl

theorem scanString_x (rest : List Char) :
    scanString (Char.ofNat 0x78 :: chQuote :: rest) = some ("x", rest) := by
  have h1 : scanStringUnits (chQuote :: rest) = some ([], rest) := by
    rw [scanStringUnits.eq_def]
    simp only [if_pos trivial]
  have h2 : scanStringUnits (Char.ofNat 0x78 :: chQuote :: rest)
      = some ([StrUnit.lit (Char.ofNat 0x78)], rest) := by
    rw [scanStringUnits.eq_def]
    simp only [h1]
    rw [if_neg (by decide), if_neg (by decide), if_neg (by decide)]
  unfold scanString
  rw [h2]
  rfl

theorem nestedBody_toList (k : Nat) :
    (nestedBody (k + 1)).toList
      = chLBrace :: chQuote :: Char.ofNat 0x78 :: chQuote :: chColon
          :: (List.replicate (k + 1) chLBracket
            ++ (List.replicate (k + 1) chRBracket ++ [chRBrace])) := by
  rfl

theorem nestedBody_length (k : Nat) : (nestedBody (k + 1)).toList.length = 2 * k + 8 := by
  rw [nestedBody_toList]
  simp only [List.length_cons, List.length_append, List.length_replicate, List.length_nil]
  omega

/-- The scanner on an object that holds arrays nested `k + 1` deep: it reads the object
when the limit allows depth `k + 2` and refuses it otherwise. -/
theorem parseValue_nestedBody (cap k fuel : Nat) (hf : 2 * k + 3 ≤ fuel) :
    parseValue cap fuel 0 (skipSpace (nestedBody (k + 1)).toList)
      = if k + 2 ≤ cap then some (JValue.object [("x", nestedArray k)], []) else none := by
  obtain ⟨fuel, rfl⟩ : ∃ f, fuel = f + 2 := ⟨fuel - 2, by omega⟩
  rw [nestedBody_toList, skipSpace_cons_of_not_space _ _ (by decide)]
  simp only [parseValue]
  rw [if_pos trivial]
  by_cases hcap : k + 2 ≤ cap
  · rw [if_neg (by omega), skipSpace_cons_of_not_space _ _ (by decide)]
    simp only []
    rw [if_neg (by decide : ¬ chQuote = chRBrace)]
    simp only [parseMembers]
    rw [if_pos trivial, scanString_x]
    simp only []
    rw [skipSpace_cons_of_not_space _ _ (by decide)]
    simp only []
    rw [if_pos trivial, List.replicate_succ, List.cons_append,
      skipSpace_cons_of_not_space _ _ (by decide), ← List.cons_append, ← List.replicate_succ,
      parseValue_brackets cap k fuel 1 [chRBrace] (by omega) (by omega)]
    simp only []
    rw [skipSpace_cons_of_not_space _ _ (by decide)]
    simp only []
    rw [if_neg (by decide : ¬ chRBrace = chComma), if_pos trivial, if_pos hcap]
  · rw [if_neg hcap]
    by_cases h0 : cap < 0 + 1
    · rw [if_pos h0]
    · rw [if_neg h0, skipSpace_cons_of_not_space _ _ (by decide)]
      simp only []
      rw [if_neg (by decide : ¬ chQuote = chRBrace)]
      simp only [parseMembers]
      rw [if_pos trivial, scanString_x]
      simp only []
      rw [skipSpace_cons_of_not_space _ _ (by decide)]
      simp only []
      rw [if_pos trivial, List.replicate_succ, List.cons_append,
        skipSpace_cons_of_not_space _ _ (by decide), ← List.cons_append,
        ← List.replicate_succ, parseValue_brackets_too_deep cap _ k fuel 1 (by omega)]

theorem nestedObject_depth (k : Nat) :
    (JValue.object [("x", nestedArray k)]).depth = k + 2 := by
  rw [JValue.depth, depthMembers, depthMembers, nestedArray_depth]
  simp

theorem startsWithValue_nestedBody (k : Nat) :
    startsWithValue (nestedBody (k + 1)) (JValue.object [("x", nestedArray k)]) [] :=
  ⟨k + 2, by
    rw [parseValue_nestedBody _ _ _ (by rw [nestedBody_length]; omega), if_pos (Nat.le_refl _)]⟩

theorem readValue_nestedBody (k : Nat) :
    readValue (nestedBody (k + 1))
      = if k + 2 ≤ maxNestingDepth then some (JValue.object [("x", nestedArray k)], [])
        else none := by
  unfold readValue
  exact parseValue_nestedBody _ _ _ (by rw [nestedBody_length]; omega)

/-- A value read by the grammar whose depth the limit of `encoding/json` respects is what
`readValue` returns. -/
theorem readValue_of_startsWithValue (body : String) (v : JValue) (rest : List Char)
    (h : startsWithValue body v rest) (hd : v.depth ≤ maxNestingDepth) :
    readValue body = some (v, rest) := by
  obtain ⟨cap, hcap⟩ := h
  exact (parse_cap cap maxNestingDepth _).1 0 _ v rest hcap (by omega)

theorem headerGet_headerSet_ne (k k2 v : String) (h : List (String × String)) (hne : k ≠ k2) :
    headerGet k (headerSet k2 v h) = headerGet k h := by
  induction h with
  | nil => simp [headerSet, headerGet, Ne.symm hne]
  | cons e rest ih =>
    by_cases he : e.1 = k2
    · have : e.1 ≠ k := by rw [he]; exact Ne.symm hne
      simp [headerSet, headerGet, he, Ne.symm hne, this]
    · by_cases hk : e.1 = k
      · rw [headerSet, if_neg he, headerGet, if_pos hk, headerGet, if_pos hk]
      · rw [headerSet, if_neg he, headerGet, if_neg hk, headerGet, if_neg hk, ih]

theorem Get_Set_ne (w : ResponseWriter) (k k2 v : String) (hne : k ≠ k2) :
    (w.Set k2 v).Get k = w.Get k := by
  unfold ResponseWriter.Set ResponseWriter.Get
  cases hs : w.status <;> simp [headerGet_headerSet_ne _ _ _ _ hne]

theorem headerGet_headerDel_ne (k k2 : String) (h : List (String × String)) (hne : k ≠ k2) :
    headerGet k (headerDel k2 h) = headerGet k h := by
  induction h with
  | nil => rfl
  | cons e rest ih =>
    by_cases he : e.1 = k2
    · have hk : e.1 ≠ k := by rw [he]; exact Ne.symm hne
      rw [headerDel, if_pos he, ih, headerGet, if_neg hk]
    · by_cases hk : e.1 = k
      · rw [headerDel, if_neg he, headerGet, if_pos hk, headerGet, if_pos hk]
      · rw [headerDel, if_neg he, headerGet, if_neg hk, headerGet, if_neg hk, ih]

theorem Get_Del_ne (w : ResponseWriter) (k k2 : String) (hne : k ≠ k2) :
    (w.Del k2).Get k = w.Get k := by
  unfold ResponseWriter.Del ResponseWriter.Get
  cases hs : w.status <;> simp [headerGet_headerDel_ne _ _ _ hne]

theorem Get_WriteHeader (w : ResponseWriter) (k : String) (code : Nat) :
    (w.WriteHeader code).Get k = w.Get k := by
  unfold ResponseWriter.WriteHeader ResponseWriter.Get
  cases hs : w.status <;> simp

theorem Get_Write (w : ResponseWriter) (k : String) (data : String) :
    (w.Write data).Get k = w.Get k := by
  unfold ResponseWriter.Write
  exact Get_WriteHeader w k 200

theorem Get_Printf (w : ResponseWriter) (k : String) (line : String) :
    (w.Printf line).Get k = w.Get k := rfl

theorem serve_eq (lib : Request → MuxReply) (r : Request) :
    serve lib r = if r.Method = "OPTIONS" then corsWriter.WriteHeader 204
      else mux lib corsWriter r := by
  rfl

theorem Get_Error (w : ResponseWriter) (k msg : String) (code : Nat)
    (h1 : k ≠ "Content-Type") (h2 : k ≠ "X-Content-Type-Options")
    (h3 : k ≠ "Content-Length") :
    (http.Error w msg code).Get k = w.Get k := by
  unfold http.Error
  simp only [Get_Write, Get_WriteHeader, Get_Set_ne _ _ _ _ h1, Get_Set_ne _ _ _ _ h2,
    Get_Del_ne _ _ _ h3]

theorem Get_writeJSON (w : ResponseWriter) (k enc : String) (code : Nat)
    (h1 : k ≠ "Content-Type") : (writeJSON w enc code).Get k = w.Get k := by
  unfold writeJSON
  simp only [Get_Write, Get_WriteHeader, Get_Set_ne _ _ _ _ h1]

theorem Get_handleProfile (w : ResponseWriter) (r : Request) (k : String)
    (h1 : k ≠ "Content-Type") (h2 : k ≠ "X-Content-Type-Options")
    (h5 : k ≠ "Content-Length") :
    (handleProfile w r).Get k = w.Get k := by
  unfold handleProfile
  split
  · exact Get_Error w k _ _ h1 h2 h5
  · exact Get_writeJSON w k _ _ h1

theorem Get_handleServices (w : ResponseWriter) (r : Request) (k : String)
    (h1 : k ≠ "Content-Type") (h2 : k ≠ "X-Content-Type-Options")
    (h5 : k ≠ "Content-Length") :
    (handleServices w r).Get k = w.Get k := by
  unfold handleServices
  split
  · exact Get_Error w k _ _ h1 h2 h5
  · exact Get_writeJSON w k _ _ h1

theorem Get_handleContact (w : ResponseWriter) (r : Request) (k : String)
    (h1 : k ≠ "Content-Type") (h2 : k ≠ "X-Content-Type-Options")
    (h5 : k ≠ "Content-Length") :
    (handleContact w r).Get k = w.Get k := by
  unfold handleContact
  split
  · exact Get_Error w k _ _ h1 h2 h5
  · split
    · exact Get_Error w k _ _ h1 h2 h5
    · simp only [Get_Write, Get_WriteHeader, Get_Printf]

theorem Get_MuxReply_serve (m : MuxReply) (w : ResponseWriter) (r : Request) (k : String)
    (h1 : k ≠ "Content-Type") (h2 : k ≠ "X-Content-Type-Options") (h3 : k ≠ "Location")
    (h4 : k ≠ "Connection") (h5 : k ≠ "Content-Length") : (m.serve w r).Get k = w.Get k := by
  cases m with
  | notFound => exact Get_Error w k _ _ h1 h2 h5
  | movedPermanently location page =>
    simp only [MuxReply.serve]
    split <;> split <;>
      simp only [Get_Write, Get_WriteHeader, Get_Set_ne _ _ _ _ h1, Get_Set_ne _ _ _ _ h3]
  | badRequest =>
    simp only [MuxReply.serve, Get_WriteHeader, Get_Set_ne _ _ _ _ h4]

theorem Get_mux (lib : Request → MuxReply) (w : ResponseWriter) (r : Request) (k : String)
    (h1 : k ≠ "Content-Type") (h2 : k ≠ "X-Content-Type-Options") (h3 : k ≠ "Location")
    (h4 : k ≠ "Connection") (h5 : k ≠ "Content-Length") : (mux lib w r).Get k = w.Get k := by
  unfold mux
  split
  · exact Get_handleProfile w r k h1 h2 h5
  · split
    · exact Get_handleServices w r k h1 h2 h5
    · split
      · exact Get_handleContact w r k h1 h2 h5
      · exact Get_MuxReply_serve _ w r k h1 h2 h3 h4 h5

/-- C8. Every response of the Data Service, whatever the method, the path and the
body of the request and whatever the mux answers on unregistered paths, carries
`Access-Control-Allow-Origin: *`, `Access-Control-Allow-Methods: GET, POST, OPTIONS` and
`Access-Control-Allow-Headers: Content-Type`. -/
theorem cors_headers_on_every_response (lib : Request → MuxReply) (r : Request) :
    (serve lib r).Get "Access-Control-Allow-Origin" = some "*"
      ∧ (serve lib r).Get "Access-Control-Allow-Methods" = some "GET, POST, OPTIONS"
      ∧ (serve lib r).Get "Access-Control-Allow-Headers" = some "Content-Type" := by
  rw [serve_eq]
  split
  · simp only [Get_WriteHeader]
    exact ⟨rfl, rfl, rfl⟩
  · refine ⟨?_, ?_, ?_⟩
    · rw [Get_mux lib _ r _ (by decide) (by decide) (by decide) (by decide) (by decide)]; rfl
    · rw [Get_mux lib _ r _ (by decide) (by decide) (by decide) (by decide) (by decide)]; rfl
    · rw [Get_mux lib _ r _ (by decide) (by decide) (by decide) (by decide) (by decide)]; rfl

/-- C7. An OPTIONS request, on any path and with any body, gets status 204, an empty
body and exactly the three cross-origin headers; the result is the same whatever the
wrapped handler is, so the wrapped handler is not run, and nothing is logged. -/
theorem options_preflight_short_circuits (next : Handler) (r : Request)
    (h : r.Method = "OPTIONS") :
    withCORS next ResponseWriter.fresh r =
      { header := [("Access-Control-Allow-Origin", "*"),
          ("Access-Control-Allow-Methods", "GET, POST, OPTIONS"),
          ("Access-Control-Allow-Headers", "Content-Type")],
        status := some 204, body := "", stderr := [] } := by
  unfold withCORS
  simp only [h, if_true]
  rfl

/-- C7 at `OPTIONS /api/contact` with a body that is not JSON. -/
theorem options_preflight_short_circuits_witness :
    withCORS handleContact ResponseWriter.fresh ⟨"OPTIONS", "/api/contact", "not json"⟩ =
      { header := [("Access-Control-Allow-Origin", "*"),
          ("Access-Control-Allow-Methods", "GET, POST, OPTIONS"),
          ("Access-Control-Allow-Headers", "Content-Type")],
        status := some 204, body := "", stderr := [] } :=
  options_preflight_short_circuits handleContact ⟨"OPTIONS", "/api/contact", "not json"⟩ rfl

theorem serve_method_mismatch (lib : Request → MuxReply) (r : Request)
    (hopt : r.Method ≠ "OPTIONS")
    (h : (r.Path = "/api/profile" ∧ r.Method ≠ "GET")
      ∨ (r.Path = "/api/services" ∧ r.Method ≠ "GET")
      ∨ (r.Path = "/api/contact" ∧ r.Method ≠ "POST")) :
    serve lib r = methodNotAllowed := by
  rw [serve_eq, if_neg hopt]
  unfold mux
  rcases h with ⟨hp, hm⟩ | ⟨hp, hm⟩ | ⟨hp, hm⟩
  · rw [if_pos hp, handleProfile, if_pos hm]; rfl
  · rw [hp]
    rw [if_neg (by decide), if_pos rfl, handleServices, if_pos hm]; rfl
  · rw [hp]
    rw [if_neg (by decide), if_neg (by decide), if_pos rfl, handleContact, if_pos hm]; rfl

theorem respond_method_mismatch (lib : Request → MuxReply) (r : Request)
    (hopt : r.Method ≠ "OPTIONS")
    (h : (r.Path = "/api/profile" ∧ r.Method ≠ "GET")
      ∨ (r.Path = "/api/services" ∧ r.Method ≠ "GET")
      ∨ (r.Path = "/api/contact" ∧ r.Method ≠ "POST")) :
    respond lib r
      = if r.Method = "HEAD" then { methodNotAllowed with body := "" } else methodNotAllowed := by
  unfold respond
  rw [serve_method_mismatch lib r hopt h]

/-- C6 (amended). On each of the three routes, every method other than the declared one
and OPTIONS gets status 405, whatever the request body: the response does not depend
on the request body and no line is logged, so `/api/contact` neither decodes nor logs.
The response has the body `method not allowed`, ended by the line feed of `http.Error`,
for every such method but HEAD, and no body for HEAD. -/
theorem method_mismatch_is_405 (lib : Request → MuxReply) (r : Request)
    (hopt : r.Method ≠ "OPTIONS")
    (h : (r.Path = "/api/profile" ∧ r.Method ≠ "GET")
      ∨ (r.Path = "/api/services" ∧ r.Method ≠ "GET")
      ∨ (r.Path = "/api/contact" ∧ r.Method ≠ "POST")) :
    (respond lib r).status = some 405
      ∧ (respond lib r).body = (if r.Method = "HEAD" then "" else "method not allowed\n")
      ∧ (respond lib r).stderr = []
      ∧ ∀ body : String, respond lib { r with Body := body } = respond lib r := by
  have hr := respond_method_mismatch lib r hopt h
  have hbody : ∀ body : String, respond lib { r with Body := body } = respond lib r := by
    intro body
    rw [hr]
    exact respond_method_mismatch lib { r with Body := body } hopt h
  refine ⟨?_, ?_, ?_, hbody⟩
  all_goals rw [hr]
  all_goals by_cases hh : r.Method = "HEAD"
  all_goals simp only [hh, if_true, if_false]
  all_goals rfl

/-- C6 (amended) at `DELETE /api/contact` with a body that is not JSON. -/
theorem method_mismatch_is_405_witness :
    ("DELETE" ≠ "OPTIONS" ∧ "/api/contact" = "/api/contact" ∧ "DELETE" ≠ "POST")
      ∧ (respond always404 ⟨"DELETE", "/api/contact", "not json"⟩).status = some 405
      ∧ (respond always404 ⟨"DELETE", "/api/contact", "not json"⟩).body
          = "method not allowed\n"
      ∧ (respond always404 ⟨"DELETE", "/api/contact", "not json"⟩).stderr = []
      ∧ respond always404 ⟨"DELETE", "/api/contact", contactS3⟩
          = respond always404 ⟨"DELETE", "/api/contact", "not json"⟩ :=
  have h := method_mismatch_is_405 always404
    ⟨"DELETE", "/api/contact", "not json"⟩ (by decide) (Or.inr (Or.inr ⟨rfl, by decide⟩))
  ⟨⟨by decide, rfl, by decide⟩, h.1, h.2.1, h.2.2.1, h.2.2.2 contactS3⟩

/-- C6 as stated fails at HEAD, which it includes: `HEAD /api/profile` gets status 405
and a response without a body, while `DELETE /api/profile` gets the body of the claim,
ended by a line feed. -/
theorem method_mismatch_head_has_no_body :
    (respond always404 ⟨"HEAD", "/api/profile", ""⟩).status = some 405
      ∧ (respond always404 ⟨"HEAD", "/api/profile", ""⟩).body = ""
      ∧ (respond always404 ⟨"DELETE", "/api/profile", ""⟩).status = some 405
      ∧ (respond always404 ⟨"DELETE", "/api/profile", ""⟩).body = "method not allowed\n" := by
  decide

theorem storeString_ok (v : JValue) (cur : String) (h : isStringOrNull v = true) :
    (storeString v cur).2 = false := by
  cases v <;> simp_all [storeString, isStringOrNull]

theorem ContactRequest.setField_ok (p : ContactRequest) (k : String) (v : JValue)
    (h : isContactField k = true → isStringOrNull v = true) :
    (ContactRequest.setField p k v).2 = false := by
  unfold ContactRequest.setField
  split
  · next hm => exact storeString_ok v _ (h (by simp [isContactField, hm]))
  · split
    · next hm => exact storeString_ok v _ (h (by simp [isContactField, hm]))
    · split
      · next hm => exact storeString_ok v _ (h (by simp [isContactField, hm]))
      · split
        · next hm => exact storeString_ok v _ (h (by simp [isContactField, hm]))
        · rfl

theorem ContactRequest.setFields_ok (ms : List (String × JValue)) :
    ∀ acc : ContactRequest × Bool, acc.2 = false →
      (∀ m ∈ ms, isContactField m.1 = true → isStringOrNull m.2 = true) →
      (ContactRequest.setFields ms acc).2 = false := by
  induction ms with
  | nil => intro acc hacc _; exact hacc
  | cons m rest ih =>
    intro acc hacc h
    obtain ⟨k, v⟩ := m
    simp only [ContactRequest.setFields]
    apply ih
    · simp only [hacc, Bool.false_or]
      exact ContactRequest.setField_ok acc.1 k v (h (k, v) (List.mem_cons_self _ _))
    · intro m hm
      exact h m (List.mem_cons_of_mem _ hm)

/-- A POST to `/api/contact` is answered by the outcome of the decode alone. -/
theorem serve_contact_post (lib : Request → MuxReply) (r : Request)
    (hm : r.Method = "POST") (hp : r.Path = "/api/contact") :
    serve lib r =
      match decodeContactRequest r.Body with
      | Except.error _ => invalidJSON
      | Except.ok payload => accepted payload := by
  rw [serve_eq, if_neg (by rw [hm]; decide)]
  unfold mux
  rw [hp, if_neg (by decide), if_neg (by decide), if_pos rfl, handleContact,
    if_neg (by rw [hm]; decide)]
  cases decodeContactRequest r.Body <;> rfl

/-- C4 (amended). A POST to `/api/contact` whose body starts with a syntactically valid
JSON object that nests arrays and objects at most 10000 deep, the object itself counted
(the limit of `encoding/json`), and in which every member whose key selects one of the
fields name, email, company, message holds a JSON string or `null`, whatever its other
keys and values (the empty object included), gets status 202. -/
theorem contact_object_with_string_fields_is_202 (lib : Request → MuxReply) (r : Request)
    (ms : List (String × JValue)) (rest : List Char)
    (hm : r.Method = "POST") (hp : r.Path = "/api/contact")
    (hbody : startsWithValue r.Body (JValue.object ms) rest)
    (hdepth : (JValue.object ms).depth ≤ maxNestingDepth)
    (hvals : ∀ m ∈ ms, isContactField m.1 = true → isStringOrNull m.2 = true) :
    (serve lib r).status = some 202 := by
  rw [serve_contact_post lib r hm hp]
  have hread := readValue_of_startsWithValue r.Body _ rest hbody hdepth
  have hflag := ContactRequest.setFields_ok ms (⟨"", "", "", ""⟩, false) rfl hvals
  simp only [decodeContactRequest, hread, unmarshalContactRequest, hflag]
  rfl

/-- An object that holds arrays nested `k + 1` deep under the key x, which selects no
field: the POST gets 202 while the nesting stays within the limit of `encoding/json` and
400 beyond it. -/
theorem contact_nested_arrays_status (lib : Request → MuxReply) (k : Nat) :
    (serve lib ⟨"POST", "/api/contact", nestedBody (k + 1)⟩).status
      = if k + 2 ≤ maxNestingDepth then some 202 else some 400 := by
  rw [serve_contact_post lib _ rfl rfl]
  simp only [decodeContactRequest, readValue_nestedBody]
  by_cases h : k + 2 ≤ maxNestingDepth
  · rw [if_pos h, if_pos h]; rfl
  · rw [if_neg h, if_neg h]; rfl

/-- C5 (amended). A POST to `/api/contact` whose body does not start with a complete
JSON value gets status 400 and the body `invalid JSON` followed by a line feed, and not
202. -/
theorem contact_without_leading_value_is_400 (lib : Request → MuxReply) (r : Request)
    (hm : r.Method = "POST") (hp : r.Path = "/api/contact")
    (hbody : readValue r.Body = none) :
    (serve lib r).status = some 400
      ∧ (serve lib r).body = "invalid JSON" ++ "\n"
      ∧ (serve lib r).status ≠ some 202 := by
  rw [serve_contact_post lib r hm hp]
  simp only [decodeContactRequest, hbody]
  decide

/-- C4 (amended) at the request body of scenario S3. -/
theorem contact_object_with_string_fields_is_202_witness :
    readValue contactS3
        = some (JValue.object [("name", JValue.string "A"), ("email", JValue.string "a@b"),
            ("company", JValue.string "C"), ("message", JValue.string "hi")], [])
      ∧ (JValue.object [("name", JValue.string "A"), ("email", JValue.string "a@b"),
            ("company", JValue.string "C"), ("message", JValue.string "hi")]).depth = 1
      ∧ (serve always404 ⟨"POST", "/api/contact", contactS3⟩).status
          = some 202 :=
  ⟨rfl, rfl,
    contact_object_with_string_fields_is_202 always404
      ⟨"POST", "/api/contact", contactS3⟩
      [("name", JValue.string "A"), ("email", JValue.string "a@b"),
        ("company", JValue.string "C"), ("message", JValue.string "hi")] []
      rfl rfl ⟨maxNestingDepth, rfl⟩ (by decide) (by decide)⟩

/-- C4 as stated fails, in two ways. The body that is the object with the single member
name: 5 is a JSON document, and the POST gets status 400 with the body `invalid JSON`
and a line feed, not 202. And the object whose single member, under the key x, is
10000 arrays nested in one another is syntactically valid and touches no field, yet its
depth of 10001 is beyond the limit of `encoding/json` and the POST gets status 400. -/
theorem contact_valid_objects_get_400 :
    isJSONDocument "\x7b\"name\":5\x7d" = true
      ∧ readValue "\x7b\"name\":5\x7d"
          = some (JValue.object [("name", JValue.number "5")], [])
      ∧ (serve always404
          ⟨"POST", "/api/contact", "\x7b\"name\":5\x7d"⟩).status = some 400
      ∧ (serve always404
          ⟨"POST", "/api/contact", "\x7b\"name\":5\x7d"⟩).body = "invalid JSON\n"
      ∧ startsWithValue (nestedBody 10000) (JValue.object [("x", nestedArray 9999)]) []
      ∧ isContactField "x" = false
      ∧ (JValue.object [("x", nestedArray 9999)]).depth = 10001
      ∧ (serve always404 ⟨"POST", "/api/contact", nestedBody 10000⟩).status = some 400 :=
  ⟨by decide, rfl, by decide, by decide, startsWithValue_nestedBody 9999, by decide,
    nestedObject_depth 9999,
    by
      have h := contact_nested_arrays_status always404 9999
      rw [if_neg (by decide)] at h
      exact h⟩

/-- C5 (amended) at the body `not json` of scenario S4. -/
theorem contact_without_leading_value_is_400_witness :
    readValue "not json" = none
      ∧ (serve always404 ⟨"POST", "/api/contact", "not json"⟩).status
          = some 400
      ∧ (serve always404 ⟨"POST", "/api/contact", "not json"⟩).body
          = "invalid JSON" ++ "\n"
      ∧ (serve always404 ⟨"POST", "/api/contact", "not json"⟩).status
          ≠ some 202 :=
  ⟨rfl,
    contact_without_leading_value_is_400 always404
      ⟨"POST", "/api/contact", "not json"⟩ rfl rfl rfl⟩

/-- C5 as stated fails: the empty object followed by the words `not json` is not a JSON
document, yet the decoder reads the leading empty object, leaves the rest unread, and
the POST gets status 202. -/
theorem contact_trailing_garbage_is_202 :
    isJSONDocument "\x7b\x7d not json" = false
      ∧ (serve always404
          ⟨"POST", "/api/contact", "\x7b\x7d not json"⟩).status = some 202
      ∧ (serve always404
          ⟨"POST", "/api/contact", "\x7b\x7d not json"⟩).body = acceptedBody := by
  decide

/-- C9, at the body of scenario S3: status 202 and the exact body, but the response
carries no `Content-Type` header at all, so not `application/json`; its headers are the
three cross-origin headers only. -/
theorem contact_accepted_has_no_content_type :
    (serve always404 ⟨"POST", "/api/contact", contactS3⟩).status = some 202
      ∧ (serve always404 ⟨"POST", "/api/contact", contactS3⟩).body
          = "\x7b\"status\":\"accepted\",\"message\":\"Thanks, your request has been received.\"\x7d"
      ∧ (serve always404 ⟨"POST", "/api/contact", contactS3⟩).Get
          "Content-Type" = none
      ∧ (serve always404 ⟨"GET", "/api/profile", ""⟩).Get
          "Content-Type" = some "application/json" := by
  decide

/-- Whenever the decode succeeds, the response is `accepted`: status 202, the fixed body,
one log line, and the cross-origin headers as the only headers. -/
theorem contact_decoded_is_accepted (lib : Request → MuxReply) (r : Request)
    (payload : ContactRequest) (hm : r.Method = "POST") (hp : r.Path = "/api/contact")
    (hd : decodeContactRequest r.Body = Except.ok payload) :
    serve lib r = accepted payload := by
  rw [serve_contact_post lib r hm hp, hd]

/-- A failed profile fetch returns a nil profile, a successful one a profile. -/
theorem fetchProfile_cases (c : Client) :
    (∃ p, fetchProfile c = (some p, none)) ∨ (∃ err, fetchProfile c = (none, some err)) := by
  unfold fetchProfile http.NewRequest
  simp only
  cases c ⟨"GET", "http://api:8081/api/profile"⟩ with
  | error err => exact Or.inr ⟨err, rfl⟩
  | ok resp =>
    simp only
    cases decodeProfile resp.Body with
    | error err => exact Or.inr ⟨err, rfl⟩
    | ok p => exact Or.inl ⟨p, rfl⟩

/-- A failed services fetch returns no items. -/
theorem fetchServices_cases (c : Client) :
    (fetchServices c).2 = none ∨ (∃ err, fetchServices c = ([], some err)) := by
  unfold fetchServices http.NewRequest
  simp only
  cases c ⟨"GET", "http://api:8081/api/services"⟩ with
  | error err => exact Or.inr ⟨err, rfl⟩
  | ok resp =>
    simp only
    cases decodeServicesResponse resp.Body with
    | error err => exact Or.inr ⟨err, rfl⟩
    | ok sr => exact Or.inl rfl

/-- The triple of `loadCoreData`: both fetch results, and an error exactly when one of
the fetches failed. -/
theorem loadCoreData_spec (c : Client) :
    (loadCoreData c).1.1 = (fetchProfile c).1
      ∧ (loadCoreData c).1.2.1 = (fetchServices c).1
      ∧ ((loadCoreData c).1.2.2 = none ↔
          (fetchProfile c).2 = none ∧ (fetchServices c).2 = none) := by
  unfold loadCoreData
  cases hp : (fetchProfile c).2 <;> cases hs : (fetchServices c).2 <;> simp [hp, hs]

/-- A failed services fetch is logged, whatever the profile fetch did. -/
theorem loadCoreData_logs_services (c : Client) (err : GoError)
    (hs : (fetchServices c).2 = some err) :
    ("Error fetching services: %v", err) ∈ (loadCoreData c).2 := by
  unfold loadCoreData
  cases hp : (fetchProfile c).2 <;> simp [hp, hs]

/-- C1. On a request with path `/` the home handler renders `home.html` with page data in
which Profile is the result of the profile fetch (a profile when it succeeded, nil when
it failed), Services is the result of the services fetch (no items when it failed),
each whatever the outcome of the other fetch, and Error is the home banner when at least
one fetch failed and empty when both succeeded. A failed services fetch is logged
whatever the profile fetch did. -/
theorem home_page_data (c : Client) (r : Request) (h : r.Path = "/") :
    ∃ data : PageData,
      (homeHandler c r).1 = Rendered.renderTemplate "home.html" data
        ∧ data.Profile = (fetchProfile c).1
        ∧ ((fetchProfile c).2 = none → ∃ p, data.Profile = some p)
        ∧ ((fetchProfile c).2 ≠ none → data.Profile = none)
        ∧ data.Services = (fetchServices c).1
        ∧ ((fetchServices c).2 ≠ none → data.Services = [])
        ∧ data.Error =
            (if (fetchProfile c).2 = none ∧ (fetchServices c).2 = none then ""
             else "Some data could not be loaded from the API. Please try again later.")
        ∧ (∀ err, (fetchServices c).2 = some err →
            ("Error fetching services: %v", err) ∈ (homeHandler c r).2) := by
  obtain ⟨h1, h2, h3⟩ := loadCoreData_spec c
  have hprof : ((fetchProfile c).2 = none → ∃ p, (fetchProfile c).1 = some p)
      ∧ ((fetchProfile c).2 ≠ none → (fetchProfile c).1 = none) := by
    rcases fetchProfile_cases c with ⟨p, hp⟩ | ⟨err, hp⟩ <;> rw [hp] <;> simp
  have hserv : (fetchServices c).2 ≠ none → (fetchServices c).1 = [] := by
    rcases fetchServices_cases c with hs | ⟨err, hs⟩
    · intro hne; exact absurd hs hne
    · rw [hs]; simp
  have hlog := loadCoreData_logs_services c
  unfold homeHandler
  rw [if_neg (by simp [h])]
  dsimp only
  by_cases hc : (loadCoreData c).1.2.2 = none
  · have hboth := h3.mp hc
    rw [if_neg (by simp [hc]), if_pos hboth]
    exact ⟨_, rfl, h1, fun hp => h1 ▸ hprof.1 hp, fun hp => h1 ▸ hprof.2 hp, h2,
      fun hs => h2 ▸ hserv hs, rfl, hlog⟩
  · have hnot : ¬ ((fetchProfile c).2 = none ∧ (fetchServices c).2 = none) :=
      fun hb => hc (h3.mpr hb)
    rw [if_pos hc, if_neg hnot]
    exact ⟨_, rfl, h1, fun hp => h1 ▸ hprof.1 hp, fun hp => h1 ▸ hprof.2 hp, h2,
      fun hs => h2 ▸ hserv hs, rfl, hlog⟩

theorem fetchProfile_backendLive : fetchProfile backendLive = (some seedProfile, none) := by
  decide

theorem fetchServices_backendLive : fetchServices backendLive = (seedServices, none) := by
  decide

/-- C1 at `GET /` with the profile route unreachable. -/
theorem home_page_data_witness :
    "/" = "/"
      ∧ (homeHandler backendProfileDown ⟨"GET", "/", ""⟩).1.summary
          = some (none, seedServices,
              "Some data could not be loaded from the API. Please try again later.") :=
  ⟨rfl, by
    obtain ⟨data, hr, hp, _, _, hs, _, he, _⟩ :=
      home_page_data backendProfileDown ⟨"GET", "/", ""⟩ rfl
    rw [hr]
    show some (data.Profile, data.Services, data.Error) = _
    rw [hp, hs, he]
    decide⟩

/-- The home page in the four combinations of a working and an unreachable route. -/
theorem home_page_examples :
    (homeHandler backendLive ⟨"GET", "/", ""⟩).1.summary
        = some (some seedProfile, seedServices, "")
      ∧ (homeHandler backendProfileDown ⟨"GET", "/", ""⟩).1.summary
          = some (none, seedServices,
              "Some data could not be loaded from the API. Please try again later.")
      ∧ (homeHandler backendServicesDown ⟨"GET", "/", ""⟩).1.summary
          = some (some seedProfile, [],
              "Some data could not be loaded from the API. Please try again later.")
      ∧ (homeHandler backendDown ⟨"GET", "/", ""⟩).1.summary
          = some (none, [],
              "Some data could not be loaded from the API. Please try again later.") := by
  decide

/-- C10. The services page renders `services.html` with the result of the services fetch,
and its banner follows both fetches: Error is empty exactly when the profile fetch and
the services fetch both succeeded, and it is the services banner whenever the profile
fetch failed, also when the services fetch succeeded and Services holds all fetched
items. -/
theorem services_page_banner_follows_both_fetches (c : Client) (r : Request) :
    ∃ data : PageData,
      (servicesHandler c r).1 = Rendered.renderTemplate "services.html" data
        ∧ data.Services = (fetchServices c).1
        ∧ (data.Error = "" ↔ (fetchProfile c).2 = none ∧ (fetchServices c).2 = none)
        ∧ ((fetchProfile c).2 ≠ none → data.Error = "Unable to load services from the API.")
        ∧ ((fetchServices c).2 ≠ none → data.Error = "Unable to load services from the API.") := by
  obtain ⟨_, h2, h3⟩ := loadCoreData_spec c
  unfold servicesHandler
  dsimp only
  by_cases hc : (loadCoreData c).1.2.2 = none
  · have hboth := h3.mp hc
    rw [if_neg (by simp [hc])]
    exact ⟨_, rfl, h2, ⟨fun _ => hboth, fun _ => rfl⟩, fun hp => absurd hboth.1 hp,
      fun hs => absurd hboth.2 hs⟩
  · have hnot : ¬ ((fetchProfile c).2 = none ∧ (fetchServices c).2 = none) :=
      fun hb => hc (h3.mpr hb)
    rw [if_pos hc]
    refine ⟨_, rfl, h2, ⟨fun he => ?_, fun hb => absurd hb hnot⟩, fun _ => rfl, fun _ => rfl⟩
    exact absurd (show "Unable to load services from the API." = "" from he) (by decide)

/-- The services page when only the profile route is unreachable: the whole catalogue
is there, under the banner. -/
theorem services_page_profile_down :
    (fetchServices backendProfileDown).2 = none
      ∧ (servicesHandler backendProfileDown ⟨"GET", "/services", ""⟩).1.summary
          = some (none, seedServices, "Unable to load services from the API.") := by
  decide

/-- C2 (amended). The about page renders `about.html` with the result of the profile
fetch, and its Error field is the about banner when the profile fetch or the services
fetch failed and the empty string when both succeeded. -/
theorem about_page_banner_follows_both_fetches (c : Client) (r : Request) :
    ∃ data : PageData,
      (aboutHandler c r).1 = Rendered.renderTemplate "about.html" data
        ∧ data.Profile = (fetchProfile c).1
        ∧ data.Error =
            (if (fetchProfile c).2 = none ∧ (fetchServices c).2 = none then ""
             else "Unable to load profile information from the API.") := by
  obtain ⟨h1, _, h3⟩ := loadCoreData_spec c
  unfold aboutHandler
  dsimp only
  by_cases hc : (loadCoreData c).1.2.2 = none
  · rw [if_neg (by simp [hc]), if_pos (h3.mp hc)]
    exact ⟨_, rfl, h1, rfl⟩
  · have hnot : ¬ ((fetchProfile c).2 = none ∧ (fetchServices c).2 = none) :=
      fun hb => hc (h3.mpr hb)
    rw [if_pos hc, if_neg hnot]
    exact ⟨_, rfl, h1, rfl⟩

/-- C2 as stated fails: with the profile route working and the services route
unreachable, the profile fetch succeeds and the about page has the seed profile, yet its
Error field is the about banner. -/
theorem about_page_banner_despite_profile :
    fetchProfile backendServicesDown = (some seedProfile, none)
      ∧ (aboutHandler backendServicesDown ⟨"GET", "/about", ""⟩).1.summary
          = some (some seedProfile, [], "Unable to load profile information from the API.") := by
  decide

/-- C3 (amended). A backend response whose body does not decode into the target type
makes the fetch fail, whatever its status: `fetchProfile` returns a nil profile with the
decode error and `fetchServices` returns no items with the decode error, and these nil
and empty values are what `loadCoreData` hands to the page data. The status code plays
no part: responses that differ only in status give the same fetch result. -/
theorem fetch_fails_on_undecodable_body (c : Client) (status : Nat) (body : String)
    (err : GoError) :
    (c ⟨"GET", "http://api:8081/api/profile"⟩ = Except.ok ⟨status, body⟩ →
        decodeProfile body = Except.error err →
        fetchProfile c = (none, some err) ∧ (loadCoreData c).1.1 = none)
      ∧ (c ⟨"GET", "http://api:8081/api/services"⟩ = Except.ok ⟨status, body⟩ →
        decodeServicesResponse body = Except.error err →
        fetchServices c = ([], some err) ∧ (loadCoreData c).1.2.1 = [])
      ∧ (∀ status2 : Nat,
          fetchProfile (backendAnswering status2 body)
              = fetchProfile (backendAnswering status body)
            ∧ fetchServices (backendAnswering status2 body)
              = fetchServices (backendAnswering status body)) := by
  obtain ⟨h1, h2, _⟩ := loadCoreData_spec c
  refine ⟨?_, ?_, fun _ => ⟨rfl, rfl⟩⟩
  · intro hc hd
    have hf : fetchProfile c = (none, some err) := by
      simp only [fetchProfile, http.NewRequest, hc, hd]
    exact ⟨hf, by rw [h1, hf]⟩
  · intro hc hd
    have hf : fetchServices c = ([], some err) := by
      simp only [fetchServices, http.NewRequest, hc, hd]
    exact ⟨hf, by rw [h2, hf]⟩

/-- C3 (amended) at the 405 response of the Data Service itself: its plain-text body is
not JSON, so both fetches fail. -/
theorem fetch_fails_on_undecodable_body_witness :
    decodeProfile "method not allowed\n" = Except.error GoError.jsonSyntax
      ∧ decodeServicesResponse "method not allowed\n" = Except.error GoError.jsonSyntax
      ∧ fetchProfile (backendAnswering 405 "method not allowed\n")
          = (none, some GoError.jsonSyntax)
      ∧ fetchServices (backendAnswering 405 "method not allowed\n")
          = ([], some GoError.jsonSyntax) :=
  have h := fetch_fails_on_undecodable_body (backendAnswering 405 "method not allowed\n")
    405 "method not allowed\n" GoError.jsonSyntax
  ⟨rfl, rfl, (h.1 rfl rfl).1, (h.2.1 rfl rfl).1⟩

/-- C3 as stated fails: a response with status 500 whose body is the empty object makes
`fetchProfile` return a profile and no error, and one whose body holds an item makes
`fetchServices` return that item and no error. -/
theorem fetch_succeeds_on_status_500 :
    fetchProfile (backendAnswering 500 "\x7b\x7d")
        = (some ⟨"", "", "", "", [], ""⟩, none)
      ∧ fetchServices (backendAnswering 500 "\x7b\"items\":[\x7b\"slug\":\"x\"\x7d]\x7d")
        = ([⟨"x", "", "", ""⟩], none) := by
  decide

end ItConsultant
